import Mathlib

/-!
# ConcurrentSystemStats: CPU estimators, memory summary, pipes, producers, options

A shallow embedding of the parts of the monitor that the specification talks
about, and the properties proved about them.

Conventions of the embedding.

* `unsigned long` and `size_t` are 64 bits wide. A value is a `Nat`; every sum
  and every unguarded difference the C code computes is reduced modulo `2 ^ 64`
  (`uadd`, `usub`). A difference guarded by `curr >= prev` is the plain
  truncated difference, which is the machine result for counters in range.
* `int` and `time_t` values are `Int`. A `long` stored into an `int` is reduced
  into the range of `int` (`toInt32`); an `int` product or a conversion from
  `double` that does not fit is undefined in C and yields `none`.
* `double` values are exact rationals (`ℚ`): rounding is not modelled.
  In `calculateCPUUsage` a division is `fdiv`, which reports a zero divisor
  as `none`.
* File-scope and function-local `static` variables are an explicit state
  record that every call receives and returns.
* What the operating system and the C library hand to the program is an input:
  the outcome of each `read` and `write`, the values `fscanf` converts, the
  tick counters of `host_statistics`. The library functions `atoi` and
  `getopt_long` are modelled as documented for them.
-/

namespace SysMon

/-! ## Machine arithmetic -/

/-- Sum of two `unsigned long` values, as the machine computes it. -/
def uadd (a b : Nat) : Nat := (a + b) % 2 ^ 64

/-- Difference of two `unsigned long` values, as the machine computes it. -/
def usub (a b : Nat) : Nat := (a + 2 ^ 64 - b) % 2 ^ 64

/-- Division of two doubles; `none` stands for a division by zero. -/
def fdiv (a b : ℚ) : Option ℚ := if b = 0 then none else some (a / b)

/-! ## CPU counters -/

/-- The array `unsigned long cpu_usage[7]`: slots 0..6 in the order
user, nice, system, idle, iowait, irq, softirq. -/
structure CpuStats where
  user : Nat
  nice : Nat
  system : Nat
  idle : Nat
  iowait : Nat
  irq : Nat
  softirq : Nat
deriving DecidableEq, Repr

/-- Every slot fits an `unsigned long`. -/
@[reducible] def CpuStats.inRange (c : CpuStats) : Prop :=
  c.user < 2 ^ 64 ∧ c.nice < 2 ^ 64 ∧ c.system < 2 ^ 64 ∧ c.idle < 2 ^ 64 ∧
  c.iowait < 2 ^ 64 ∧ c.irq < 2 ^ 64 ∧ c.softirq < 2 ^ 64

/-- The array initialiser `{0}`. -/
def CpuStats.zero : CpuStats := ⟨0, 0, 0, 0, 0, 0, 0⟩

/-- Component-wise `curr >= prev` on the four slots the estimators read and on
the three they ignore. -/
@[reducible] def CpuStats.le (p c : CpuStats) : Prop :=
  p.user ≤ c.user ∧ p.nice ≤ c.nice ∧ p.system ≤ c.system ∧ p.idle ≤ c.idle ∧
  p.iowait ≤ c.iowait ∧ p.irq ≤ c.irq ∧ p.softirq ≤ c.softirq

/-- Sum `a[0] + a[1] + a[2] + a[3]` of the first four slots, left to right in
`unsigned long` arithmetic (`currTotal` in `calculateCPUUsage`). -/
def CpuStats.total4 (c : CpuStats) : Nat :=
  uadd (uadd (uadd c.user c.nice) c.system) c.idle

/-- One guarded difference of `calculateCPUUsage`:
`diff = 0; if (curr >= prev) diff = curr - prev;`
(in `update_system_data`: `(curr >= prev) ? (curr - prev) : 0`). -/
def fieldDiff (curr prev : Nat) : Nat :=
  if curr ≥ prev then curr - prev else 0

/-! ## `calculateCPUUsage` (core/cpu.c) -/

/-- The file-scope variables `prev_cpu_usage` and `first_run` of cpu.c. -/
structure CpuState where
  prev_cpu_usage : CpuStats
  first_run : Bool
deriving DecidableEq, Repr

/-- Initial values of the file-scope variables: `{0}` and `1`. -/
def CpuState.init : CpuState := ⟨CpuStats.zero, true⟩

/-- The direct method used on the first run and on a zero total difference:
`if (total == 0) return 0.0;
 idle_percent = (double)idle * 100.0 / total; return 100.0 - idle_percent;` -/
def directUsage (curr : CpuStats) : Option ℚ :=
  let total := curr.total4
  if total = 0 then some 0
  else
    (fdiv ((curr.idle : ℚ) * 100) (total : ℚ)).map (fun idle_percent => 100 - idle_percent)

/-- The function `calculateCPUUsage(prevCpuUsage, currCpuUsage)`: the returned
double (`none` if a division by zero happened) and the file-scope variables
after the call. -/
def calculateCPUUsage (st : CpuState) (prevCpuUsage currCpuUsage : CpuStats) :
    Option ℚ × CpuState :=
  if st.first_run then
    -- prev_cpu_usage[i] = prevCpuUsage[i]; first_run = 0;
    (directUsage currCpuUsage, { prev_cpu_usage := prevCpuUsage, first_run := false })
  else
    let userDiff := fieldDiff currCpuUsage.user prevCpuUsage.user
    let niceDiff := fieldDiff currCpuUsage.nice prevCpuUsage.nice
    let systemDiff := fieldDiff currCpuUsage.system prevCpuUsage.system
    let idleDiff := fieldDiff currCpuUsage.idle prevCpuUsage.idle
    let totalDiff := uadd (uadd (uadd userDiff niceDiff) systemDiff) idleDiff
    if totalDiff = 0 then
      -- both returns of this branch leave prev_cpu_usage untouched
      (directUsage currCpuUsage, st)
    else
      match fdiv (((usub totalDiff idleDiff : Nat) : ℚ) * 100) (totalDiff : ℚ) with
      | none => (none, { st with prev_cpu_usage := currCpuUsage })
      | some nonIdlePercent =>
        let clamped :=
          if nonIdlePercent < 0 then 0
          else if nonIdlePercent > 100 then 100
          else nonIdlePercent
        (some clamped, { st with prev_cpu_usage := currCpuUsage })

/-- Restriction of a percentage to the interval from 0 to 100, as the
specification words it. -/
def clampPct (x : ℚ) : ℚ := max 0 (min 100 x)

/-- Total difference of `calculateCPUUsage` for a pair of samples. -/
def totalDiffOf (prev curr : CpuStats) : Nat :=
  uadd (uadd (uadd (fieldDiff curr.user prev.user) (fieldDiff curr.nice prev.nice))
    (fieldDiff curr.system prev.system)) (fieldDiff curr.idle prev.idle)

/-! ## The estimator of `update_system_data` (gui/gui.c) -/

/-- The function-local statics `prev_stats`, `curr_stats`, `last_cpu_usage`
and `samples_collected` of `update_system_data`. The `int` counter
`samples_collected` is a `Nat`: only whether it is positive is ever read. -/
structure GuiCpuState where
  prev_stats : CpuStats
  curr_stats : CpuStats
  last_cpu_usage : ℚ
  samples_collected : Nat
deriving DecidableEq, Repr

/-- Initial values of the statics: `{0}`, `{0}`, `15.0`, `0`. -/
def GuiCpuState.init : GuiCpuState := ⟨CpuStats.zero, CpuStats.zero, 15, 0⟩

/-- The raw percentage of `update_system_data`, evaluated where `total_delta > 0`:
`new_usage = 100.0 * (double)(total_delta - idle_delta) / (double)total_delta;
 if (new_usage < 0.0) new_usage = 0.0; if (new_usage > 100.0) new_usage = 100.0;` -/
def rawUsage (total_delta idle_delta : Nat) : ℚ :=
  let new_usage := 100 * ((usub total_delta idle_delta : Nat) : ℚ) / (total_delta : ℚ)
  let new_usage := if new_usage < 0 then 0 else new_usage
  if new_usage > 100 then 100 else new_usage

/-- The weighted average of `update_system_data`: the three tiers chosen by
`fabs(new_usage - last_cpu_usage)`. -/
def smooth (last_cpu_usage new_usage : ℚ) : ℚ :=
  if |new_usage - last_cpu_usage| > 25 then
    0.85 * last_cpu_usage + 0.15 * new_usage
  else if |new_usage - last_cpu_usage| > 10 then
    0.65 * last_cpu_usage + 0.35 * new_usage
  else
    0.5 * last_cpu_usage + 0.5 * new_usage

/-- The special case after the smoothing:
`if (cpu_usage < 2.0 && last_cpu_usage > 5.0) cpu_usage = last_cpu_usage * 0.7;` -/
def floorGuard (cpu_usage last_cpu_usage : ℚ) : ℚ :=
  if cpu_usage < 2 ∧ last_cpu_usage > 5 then last_cpu_usage * 0.7 else cpu_usage

/-- The value of `cpu_usage` when the floor guard is reached: it starts as
`last_cpu_usage` and is replaced by the smoothed value only when a previous
sample exists and `total_delta > 0`. -/
def candidateUsage (st : GuiCpuState) (reading : CpuStats) : ℚ :=
  let prev_stats := st.curr_stats
  let curr_stats := reading
  if st.samples_collected > 0 then
    let user_delta := fieldDiff curr_stats.user prev_stats.user
    let nice_delta := fieldDiff curr_stats.nice prev_stats.nice
    let system_delta := fieldDiff curr_stats.system prev_stats.system
    let idle_delta := fieldDiff curr_stats.idle prev_stats.idle
    let total_delta := uadd (uadd (uadd user_delta nice_delta) system_delta) idle_delta
    if total_delta > 0 then
      smooth st.last_cpu_usage (rawUsage total_delta idle_delta)
    else st.last_cpu_usage
  else st.last_cpu_usage

/-- The CPU part of one timer call of `update_system_data`, where `reading` is
what `get_cpu_stats(curr_stats)` stores: the value written to
`data->cpu_usage` and the statics after the call. -/
def update_system_data (st : GuiCpuState) (reading : CpuStats) : ℚ × GuiCpuState :=
  let cpu_usage := floorGuard (candidateUsage st reading) st.last_cpu_usage
  (cpu_usage,
    { prev_stats := st.curr_stats
      curr_stats := reading
      last_cpu_usage := cpu_usage
      samples_collected := st.samples_collected + 1 })

/-- The fields of `struct sysinfo` that `storeMemoryInfo` reads. -/
structure SysInfo where
  totalram : Nat
  freeram : Nat
  totalswap : Nat
  freeswap : Nat
deriving DecidableEq, Repr

/-- The doubles computed by `storeMemoryInfo` before they are formatted. -/
structure MemoryFigures where
  phys_total_gb : ℚ
  phys_free_gb : ℚ
  phys_used_gb : ℚ
  swap_total_gb : ℚ
  swap_free_gb : ℚ
  virtual_used_gb : ℚ
  virtual_total_gb : ℚ
deriving DecidableEq, Repr

/-- The divisor `(1024 * 1024 * 1024)`. -/
def BYTES_PER_GB : Nat := 1024 * 1024 * 1024

/-- The conversion in the `else` branch of `storeMemoryInfo` (the call of
`sysinfo` succeeded). -/
def memoryFigures (sys_info : SysInfo) : MemoryFigures :=
  let phys_total_gb := (sys_info.totalram : ℚ) / (BYTES_PER_GB : ℚ)
  let phys_free_gb := (sys_info.freeram : ℚ) / (BYTES_PER_GB : ℚ)
  let phys_used_gb := phys_total_gb - phys_free_gb
  let swap_total_gb := (sys_info.totalswap : ℚ) / (BYTES_PER_GB : ℚ)
  let swap_free_gb := (sys_info.freeswap : ℚ) / (BYTES_PER_GB : ℚ)
  let virtual_used_gb := phys_used_gb + (swap_total_gb - swap_free_gb)
  let virtual_total_gb := phys_total_gb + swap_total_gb
  { phys_total_gb := phys_total_gb
    phys_free_gb := phys_free_gb
    phys_used_gb := phys_used_gb
    swap_total_gb := swap_total_gb
    swap_free_gb := swap_free_gb
    virtual_used_gb := virtual_used_gb
    virtual_total_gb := virtual_total_gb }

/-! ## Pipes and the length-prefixed messages -/

/-- Buffer sizes of utils/common.h. -/
def MAX_MEMORY_BUFFER : Nat := 1024

/-- Size of the user buffer, utils/common.h. -/
def MAX_USER_BUFFER : Nat := 4096

/-- What the transport does on one call of `read`: hand over at most `n` of
the bytes that are waiting, or fail (`read` returns -1). -/
inductive Delivery where
  | chunk (n : Nat)
  | fault
deriving DecidableEq, Repr

/-- The read end of a pipe: the bytes written and not yet read, and the
behaviour of the transport on the coming calls of `read` (when the list is
used up every call delivers all it is asked for). -/
structure Pipe where
  data : List Nat
  sched : List Delivery
deriving DecidableEq, Repr

/-- The call `read(fd, buf, count)`: the returned `ssize_t`, the bytes stored in
`buf`, and the pipe afterwards. At the end of the stream it returns 0. -/
def Pipe.read (p : Pipe) (count : Nat) : Int × List Nat × Pipe :=
  match p.sched with
  | [] =>
    let got := p.data.take count
    ((got.length : Int), got, { data := p.data.drop count, sched := [] })
  | Delivery.fault :: rest => (-1, [], { data := p.data, sched := rest })
  | Delivery.chunk n :: rest =>
    let got := p.data.take (min count n)
    ((got.length : Int), got, { data := p.data.drop (min count n), sched := rest })

/-- The `k` low bytes of `n`, least significant first: the object
representation of a `size_t` on the little-endian targets. -/
def encodeLE : Nat → Nat → List Nat
  | 0, _ => []
  | k + 1, n => n % 256 :: encodeLE k (n / 256)

/-- Value of a `size_t` that was zero before its first bytes were overwritten
with `bytes` (`len = 0; read(fd, &len, sizeof(len))`). -/
def decodeLE : List Nat → Nat
  | [] => 0
  | b :: rest => b + 256 * decodeLE rest

/-- The two writes of one message in `storeMemoryInfo` (and `storeUserInfo`):
`len = strlen(buf) + 1; write(fd, &len, sizeof(len)); write(fd, buf, len);`
where `str` is the string held by the buffer, without its terminating NUL. -/
def frame (str : List Nat) : List Nat :=
  encodeLE 8 ((str.length + 1) % 2 ^ 64) ++ (str ++ [0])

/-- The payload of a message: the string and its terminating NUL. -/
def payload (str : List Nat) : List Nat := str ++ [0]

/-- Bytes that the loop of `storeMemoryInfo` puts on the memory pipe when no
write fails, given the strings formatted in the successive iterations. -/
def storeMemoryInfo_stream : List (List Nat) → List Nat
  | [] => []
  | memBuffer :: rest => frame memBuffer ++ storeMemoryInfo_stream rest

/-- The memory read of one round of `runSequentialMode` and of
`runNonsequentialMode`:
`len = 0; bytes_read = read(memFD, &len, sizeof(len));
 if (bytes_read > 0 && len > 0 && len < sizeof(memArr[i])) {
   bytes_read = read(memFD, memArr[i], len);
   if (bytes_read > 0) { memArr[i][bytes_read] = 0; ... print ... } }`.
The result is the bytes `memArr[i][0 .. bytes_read)` of an accepted message, or
`none` when the round shows no memory line. -/
def readMemoryMessage (p : Pipe) : Option (List Nat) × Pipe :=
  let r1 := p.read 8
  let len := decodeLE r1.2.1
  if r1.1 > 0 ∧ len > 0 ∧ len < MAX_MEMORY_BUFFER then
    let r2 := r1.2.2.read len
    if r2.1 > 0 then (some r2.2.1, r2.2.2) else (none, r2.2.2)
  else (none, r1.2.2)

/-- The memory reads of `samples` successive rounds. -/
def readMemoryRounds : Nat → Pipe → List (Option (List Nat))
  | 0, _ => []
  | samples + 1, p =>
    let r := readMemoryMessage p
    r.1 :: readMemoryRounds samples r.2

/-- What `printUserInfo` prints after its heading. -/
inductive UserOutput where
  | noSessions
  | sessions (received : List Nat)
deriving DecidableEq, Repr

/-- The function `printUserInfo(userFD)`:
`if (read(fd, &len, sizeof(len)) <= 0 || len > sizeof(buffer)) { no sessions }
 bytesRead = read(fd, buffer, len);
 if (bytesRead > 0) { buffer[bytesRead] = 0; print buffer } else { no sessions }`.
`sessions received` carries the bytes `buffer[0 .. bytesRead)`. -/
def printUserInfo (p : Pipe) : UserOutput × Pipe :=
  let r1 := p.read 8
  let len := decodeLE r1.2.1
  if r1.1 ≤ 0 ∨ len > MAX_USER_BUFFER then (UserOutput.noSessions, r1.2.2)
  else
    let r2 := r1.2.2.read len
    if r2.1 > 0 then (UserOutput.sessions r2.2.1, r2.2.2)
    else (UserOutput.noSessions, r2.2.2)

/-- A transport that hands over in full every read of at most `bound` bytes:
no call fails and no call is cut below `bound` bytes. -/
def deliversWhole (bound : Nat) (sched : List Delivery) : Prop :=
  ∀ d ∈ sched, ∃ n, d = Delivery.chunk n ∧ bound ≤ n

/-- A transport that never fails and never returns an empty chunk while bytes
are waiting: it only splits the byte stream. -/
def onlySplits (sched : List Delivery) : Prop :=
  ∀ d ∈ sched, ∃ n, d = Delivery.chunk n ∧ 0 < n

/-- The length that the prefix read of a consumer leaves in `len`. -/
def announcedLength (p : Pipe) : Nat := decodeLE (p.read 8).2.1

/-- The payload read that follows the prefix read, `read(fd, buffer, len)`. -/
def payloadRead (p : Pipe) : Int × List Nat × Pipe :=
  (p.read 8).2.2.read (announcedLength p)

/-- The statics of `update_system_data` after the successive timer calls that
observe the given readings. -/
def runUpdates (st : GuiCpuState) : List CpuStats → GuiCpuState
  | [] => st
  | reading :: rest => runUpdates (update_system_data st reading).2 rest

/-! ## `get_cpu_stats` (platform/platform_linux.c, platform_mac.c, platform_darwin.c) -/

/-- The seven slots of the array, in index order. -/
def CpuStats.toList (c : CpuStats) : List Nat :=
  [c.user, c.nice, c.system, c.idle, c.iowait, c.irq, c.softirq]

/-- The array whose slots 0..6 hold the first seven entries of the list. -/
def CpuStats.ofList (l : List Nat) : CpuStats :=
  ⟨l.getD 0 0, l.getD 1 0, l.getD 2 0, l.getD 3 0, l.getD 4 0, l.getD 5 0, l.getD 6 0⟩

/-- The stores of `fscanf(fp, "cpu %lu %lu %lu %lu %lu %lu %lu", &cpu_usage[0], ...)`:
the converted values go to slots 0, 1, ... and the other slots keep their
content. -/
def storeConverted (cpu_usage : CpuStats) (converted : List Nat) : CpuStats :=
  CpuStats.ofList (converted.take 7 ++ cpu_usage.toList.drop (converted.take 7).length)

/-- The Linux `get_cpu_stats(cpu_usage)`. `proc_stat` is `none` when `fopen`
fails and otherwise the values that `fscanf` converts from the first line
(their number is what `fscanf` returns, or it returns `EOF` with none
converted); `cpu_usage` is the content of the array before the call. -/
def get_cpu_stats_linux (cpu_usage : CpuStats) (proc_stat : Option (List Nat)) : CpuStats :=
  match proc_stat with
  | none => CpuStats.zero
  | some converted =>
    let scanned := storeConverted cpu_usage converted
    if (converted.take 7).length ≠ 7 then CpuStats.zero else scanned

/-- The tick counters `cpu_ticks[CPU_STATE_USER / SYSTEM / IDLE / NICE]` of a
`host_cpu_load_info_data_t`; each is a 32-bit `natural_t`. -/
structure HostCpuLoad where
  user : Nat
  system : Nat
  idle : Nat
  nice : Nat
deriving DecidableEq, Repr

/-- Difference of two `natural_t` counters, computed in 32-bit unsigned
arithmetic and then widened to `unsigned long`. -/
def tickDiff (curr prev : Nat) : Nat := (curr + 2 ^ 32 - prev) % 2 ^ 32

/-- The file-scope statics `prev_cpu_load` and `prev_cpu_load_initialized` of
platform_mac.c. -/
structure MacCpuState where
  prev_cpu_load : HostCpuLoad
  prev_cpu_load_initialized : Bool
deriving DecidableEq, Repr

/-- Initial values of the statics of platform_mac.c. -/
def MacCpuState.init : MacCpuState := ⟨⟨0, 0, 0, 0⟩, false⟩

/-- The function `get_cpu_stats` of platform_mac.c. `host` is what
`host_statistics` stores, `none` when it does not return `KERN_SUCCESS`. The
result is the array after the call and the statics after the call. -/
def get_cpu_stats_mac (st : MacCpuState) (host : Option HostCpuLoad) :
    CpuStats × MacCpuState :=
  match host with
  | none => (CpuStats.zero, st)
  | some cpu_load =>
    if !st.prev_cpu_load_initialized then
      (⟨10, 1, 1, 100, 0, 0, 0⟩,
        { prev_cpu_load := cpu_load, prev_cpu_load_initialized := true })
    else
      let user_diff := tickDiff cpu_load.user st.prev_cpu_load.user
      let nice_diff := tickDiff cpu_load.nice st.prev_cpu_load.nice
      let system_diff := tickDiff cpu_load.system st.prev_cpu_load.system
      let idle_diff := tickDiff cpu_load.idle st.prev_cpu_load.idle
      let total_diff := uadd (uadd (uadd user_diff nice_diff) system_diff) idle_diff
      let idle_diff := if total_diff = 0 then 95 else idle_diff
      (⟨user_diff, nice_diff, system_diff, idle_diff, 0, 0, 0⟩,
        { st with prev_cpu_load := cpu_load })

/-- The function `get_cpu_stats` of platform_darwin.c; it has no statics. -/
def get_cpu_stats_darwin (host : Option HostCpuLoad) : CpuStats :=
  match host with
  | some cpuinfo => ⟨cpuinfo.user, cpuinfo.nice, cpuinfo.system, cpuinfo.idle, 0, 0, 0⟩
  | none => CpuStats.zero

/-! ## The CPU channels -/

/-- The bytes of `write(pipe_fd[1], &cpu_usage, sizeof(cpu_usage))` in
`storeCPUInfo`: the object representation of the array of seven
`unsigned long`. -/
def storeCPUInfo_bytes (cpu_usage : CpuStats) : List Nat :=
  encodeLE 8 cpu_usage.user ++ encodeLE 8 cpu_usage.nice ++ encodeLE 8 cpu_usage.system ++
    encodeLE 8 cpu_usage.idle ++ encodeLE 8 cpu_usage.iowait ++ encodeLE 8 cpu_usage.irq ++
    encodeLE 8 cpu_usage.softirq

/-- The array of seven `unsigned long` whose object representation is the
given 56 bytes. -/
def decodeCpuStats (bytes : List Nat) : CpuStats :=
  ⟨decodeLE (bytes.take 8), decodeLE ((bytes.drop 8).take 8),
    decodeLE ((bytes.drop 16).take 8), decodeLE ((bytes.drop 24).take 8),
    decodeLE ((bytes.drop 32).take 8), decodeLE ((bytes.drop 40).take 8),
    decodeLE ((bytes.drop 48).take 8)⟩

/-- The consumer's `read(fd, &cpuUsage, sizeof(cpuUsage))` in `runSequentialMode`
and `runNonsequentialMode`; the return value is not inspected. The bytes
received overwrite the start of the array, whose previous content is
`cpuUsage`; the result is the array and the pipe after the call. -/
def readCpuArray (cpuUsage : CpuStats) (p : Pipe) : CpuStats × Pipe :=
  let r := p.read 56
  (decodeCpuStats (r.2.1 ++ (storeCPUInfo_bytes cpuUsage).drop r.2.1.length), r.2.2)

/-! ## The rounds of the consumer (main/main.c) -/

/-- The pipes the consumer reads in its rounds. -/
inductive Channel where
  | cpuPrev
  | cpuCurr
  | memory
  | users
deriving DecidableEq, Repr

/-- The read ends `cpuPFD[0]`, `cpuCFD[0]`, `userFD[0]` and `memFD[0]` of the
`PipeSet` (`ucountFD` is read once by `main`, before the rounds). -/
structure PipeSet where
  cpuPFD : Pipe
  cpuCFD : Pipe
  userFD : Pipe
  memFD : Pipe
deriving DecidableEq, Repr

/-- What a mode function carries from one iteration of its loop to the next:
the pipes, the local arrays `prevCpuUsage` and `currCpuUsage` (not initialised
before the first read) and the statics of cpu.c. -/
structure Consumer where
  pipes : PipeSet
  prevCpuUsage : CpuStats
  currCpuUsage : CpuStats
  cpu : CpuState
deriving DecidableEq, Repr

/-- What one iteration does that can be observed: the channel of each call of
`read` in the order of the calls, the memory line accepted (if any), what
`printUserInfo` printed (if it was called) and the value printed as
`total cpu use` (if the CPU part ran). -/
structure RoundOutput where
  reads : List Channel
  memoryLine : Option (List Nat)
  users : Option UserOutput
  cpuUse : Option (Option ℚ)
deriving DecidableEq, Repr

/-- The calls of `read` made by the memory read of a round: one for the length
and, when the length is accepted, one for the payload. -/
def memoryReadCalls (p : Pipe) : List Channel :=
  if (p.read 8).1 > 0 ∧ announcedLength p > 0 ∧ announcedLength p < MAX_MEMORY_BUFFER then
    [Channel.memory, Channel.memory]
  else [Channel.memory]

/-- The calls of `read` made by `printUserInfo`. -/
def userReadCalls (p : Pipe) : List Channel :=
  if (p.read 8).1 ≤ 0 ∨ announcedLength p > MAX_USER_BUFFER then [Channel.users]
  else [Channel.users, Channel.users]

/-- One iteration of the loop of `runSequentialMode`, for the flags `user` and
`system` (an `int` flag is `true` when it is not 0). The `graphics` branches
only format text and are left out. -/
def sequentialRound (user system : Bool) (c : Consumer) : RoundOutput × Consumer :=
  if !user || (user && system) then
    -- memory
    let mem := readMemoryMessage c.pipes.memFD
    -- users, under `(user && system) || !system`
    let shown := (user && system) || !system
    let usr := printUserInfo c.pipes.userFD
    let userReads := if shown then userReadCalls c.pipes.userFD else []
    let userOut := if shown then some usr.1 else none
    let userFD := if shown then usr.2 else c.pipes.userFD
    -- CPU
    let prev := readCpuArray c.prevCpuUsage c.pipes.cpuPFD
    let curr := readCpuArray c.currCpuUsage c.pipes.cpuCFD
    let usage := calculateCPUUsage c.cpu prev.1 curr.1
    ({ reads := memoryReadCalls c.pipes.memFD ++ userReads ++ [Channel.cpuPrev, Channel.cpuCurr]
       memoryLine := mem.1
       users := userOut
       cpuUse := some usage.1 },
     { pipes := { cpuPFD := prev.2, cpuCFD := curr.2, userFD := userFD, memFD := mem.2 }
       prevCpuUsage := prev.1
       currCpuUsage := curr.1
       cpu := usage.2 })
  else
    let usr := printUserInfo c.pipes.userFD
    ({ reads := userReadCalls c.pipes.userFD
       memoryLine := none
       users := some usr.1
       cpuUse := none },
     { c with pipes := { c.pipes with userFD := usr.2 } })

/-- One iteration of the loop of `runNonsequentialMode`; the cursor movements
and the `graphics` branches only format text and are left out. -/
def nonsequentialRound (user system : Bool) (c : Consumer) : RoundOutput × Consumer :=
  if !user || (user && system) then
    -- users, under `(user && system) || !system`
    let shown := (user && system) || !system
    let usr := printUserInfo c.pipes.userFD
    let userReads := if shown then userReadCalls c.pipes.userFD else []
    let userOut := if shown then some usr.1 else none
    let userFD := if shown then usr.2 else c.pipes.userFD
    -- CPU
    let prev := readCpuArray c.prevCpuUsage c.pipes.cpuPFD
    let curr := readCpuArray c.currCpuUsage c.pipes.cpuCFD
    let usage := calculateCPUUsage c.cpu prev.1 curr.1
    -- memory
    let mem := readMemoryMessage c.pipes.memFD
    ({ reads := userReads ++ [Channel.cpuPrev, Channel.cpuCurr] ++ memoryReadCalls c.pipes.memFD
       memoryLine := mem.1
       users := userOut
       cpuUse := some usage.1 },
     { pipes := { cpuPFD := prev.2, cpuCFD := curr.2, userFD := userFD, memFD := mem.2 }
       prevCpuUsage := prev.1
       currCpuUsage := curr.1
       cpu := usage.2 })
  else
    let usr := printUserInfo c.pipes.userFD
    ({ reads := userReadCalls c.pipes.userFD
       memoryLine := none
       users := some usr.1
       cpuUse := none },
     { c with pipes := { c.pipes with userFD := usr.2 } })

/-- The channels in the order in which a sequence of reads first touches
them. -/
def readOrder : List Channel → List Channel
  | [] => []
  | ch :: rest => ch :: (readOrder rest).filter (fun other => other ≠ ch)

/-! ## The producers (core/system.c, core/cpu.c, core/memory.c, core/user.c) -/

/-- The write ends used by the producers. -/
inductive OutChannel where
  | cpuPFD
  | cpuCFD
  | memFD
  | userFD
  | ucountFD
deriving DecidableEq, Repr

/-- The calls of a producer process that matter to its peers, in program
order: a `write` that succeeded with its bytes, a `write` that returned -1,
`kill(getpid(), SIGTERM)`, `kill(getppid(), SIGTERM)` and `exit(status)`. -/
inductive Action where
  | wrote (ch : OutChannel) (bytes : List Nat)
  | writeFailed (ch : OutChannel)
  | killSelf
  | killParent
  | exitProcess (status : Nat)
deriving DecidableEq, Repr

/-- The calls a process really makes out of the calls its program text lists:
no handler for SIGTERM is installed anywhere in the program (the children only
set SIGINT and SIGTSTP to `SIG_IGN`), so a process that calls
`kill(getpid(), SIGTERM)` is terminated inside that call and makes none of
the calls that follow it. -/
def untilSelfKill : List Action → List Action
  | [] => []
  | Action.killSelf :: _ => [Action.killSelf]
  | a :: rest => a :: untilSelfKill rest

/-- The statements of the failure branch of `storeCPUInfo`, in the order of
the program text:
`kill(getpid(), SIGTERM); kill(getppid(), SIGTERM); close(...); exit(EXIT_FAILURE);`
Which of them are executed is settled by `untilSelfKill` in `cpuProducer`. -/
def storeCPUInfo_failure (ch : OutChannel) : List Action :=
  [Action.writeFailed ch, Action.killSelf, Action.killParent, Action.exitProcess 1]

/-- The program text of the CPU child of `createChildProcesses`:
`for (i = 0; i < samples; i++) { storeCPUInfo(cpuPFD); sleep(tdelay); storeCPUInfo(cpuCFD); }`
then `exit(EXIT_SUCCESS)`. `readings k` is what the call number `k` of
`get_cpu_stats` stores and `ok k` tells whether the call number `k` of `write`
succeeds; the first argument counts the iterations left, the second is `i`. -/
def cpuChildLoop (readings : Nat → CpuStats) (ok : Nat → Bool) : Nat → Nat → List Action
  | 0, _ => [Action.exitProcess 0]
  | left + 1, i =>
    if ok (2 * i) then
      Action.wrote OutChannel.cpuPFD (storeCPUInfo_bytes (readings (2 * i))) ::
        (if ok (2 * i + 1) then
          Action.wrote OutChannel.cpuCFD (storeCPUInfo_bytes (readings (2 * i + 1))) ::
            cpuChildLoop readings ok left (i + 1)
        else storeCPUInfo_failure OutChannel.cpuCFD)
    else storeCPUInfo_failure OutChannel.cpuPFD

/-- The CPU producer for `samples` iterations: the calls the CPU child makes.
After a failed write it dies in `kill(getpid(), SIGTERM)`, before the
`kill(getppid(), SIGTERM)` and the `exit(EXIT_FAILURE)` of `storeCPUInfo`. -/
def cpuProducer (samples : Nat) (readings : Nat → CpuStats) (ok : Nat → Bool) : List Action :=
  untilSelfKill (cpuChildLoop readings ok samples 0)

/-- The loop of `storeMemoryInfo`: in iteration `i` the string `memBuffers i`
is sent with two writes; a failed write is followed by
`kill(getpid(), SIGTERM); return;`. -/
def storeMemoryInfoLoop (memBuffers : Nat → List Nat) (ok : Nat → Bool) :
    Nat → Nat → List Action
  | 0, _ => []
  | left + 1, i =>
    if ok (2 * i) then
      Action.wrote OutChannel.memFD (encodeLE 8 (((memBuffers i).length + 1) % 2 ^ 64)) ::
        (if ok (2 * i + 1) then
          Action.wrote OutChannel.memFD (payload (memBuffers i)) ::
            storeMemoryInfoLoop memBuffers ok left (i + 1)
        else [Action.writeFailed OutChannel.memFD, Action.killSelf])
    else [Action.writeFailed OutChannel.memFD, Action.killSelf]

/-- The memory child of `createChildProcesses`: `storeMemoryInfo(tdelay, samples, memFD)`,
then `close` and `exit(EXIT_SUCCESS)`. After a failed write the child dies in
`kill(getpid(), SIGTERM)` and reaches neither the `return` of
`storeMemoryInfo` nor the `exit`. -/
def memoryProducer (samples : Nat) (memBuffers : Nat → List Nat) (ok : Nat → Bool) :
    List Action :=
  untilSelfKill (storeMemoryInfoLoop memBuffers ok samples 0 ++ [Action.exitProcess 0])

/-- The writes of `storeUserInfo`, given the count and the blob it has
collected. `utmpname_ok` is the outcome of `utmpname(_PATH_UTMP) != -1` in the
Linux build (the macOS build has no such call: `true`). -/
def storeUserInfo (utmpname_ok : Bool) (userLine_count : Nat) (all_users : List Nat)
    (ok : Nat → Bool) : List Action :=
  if !utmpname_ok then []
  else if !ok 0 then [Action.writeFailed OutChannel.ucountFD]
  else
    Action.wrote OutChannel.ucountFD (encodeLE 4 userLine_count) ::
      (if !ok 1 then [Action.writeFailed OutChannel.userFD]
      else
        Action.wrote OutChannel.userFD (encodeLE 8 ((all_users.length + 1) % 2 ^ 64)) ::
          (if !ok 2 then [Action.writeFailed OutChannel.userFD]
          else [Action.wrote OutChannel.userFD (payload all_users)]))

/-- The user child of `createChildProcesses`: `storeUserInfo(userFD, ucountFD)`,
then `close` and `exit(EXIT_SUCCESS)`. -/
def userProducer (utmpname_ok : Bool) (userLine_count : Nat) (all_users : List Nat)
    (ok : Nat → Bool) : List Action :=
  storeUserInfo utmpname_ok userLine_count all_users ok ++ [Action.exitProcess 0]

/-- The bytes of the successful writes on one channel, write by write. -/
def writesOn (ch : OutChannel) : List Action → List (List Nat)
  | [] => []
  | Action.wrote c bytes :: rest =>
    if c = ch then bytes :: writesOn ch rest else writesOn ch rest
  | _ :: rest => writesOn ch rest

/-! ## Command-line options (core/system.c, main/main.c) -/

/-- The structure `ProgramOptions` of utils/common.h; every member is an `int`. -/
structure ProgramOptions where
  samples : Int
  tdelay : Int
  user : Int
  system : Int
  sequential : Int
  graphics : Int
deriving DecidableEq, Repr

/-- Default number of samples, utils/common.h. -/
def DEFAULT_SAMPLES : Int := 10

/-- Default delay in seconds, utils/common.h. -/
def DEFAULT_DELAY : Int := 1

/-- Default refresh rate, main/main.c. -/
def DEFAULT_REFRESH_RATE : Int := 1

/-- White space as `isspace` sees it in the C locale. -/
def isSpaceC (c : Char) : Bool := c.toNat = 32 || (9 ≤ c.toNat && c.toNat ≤ 13)

/-- Value of the leading decimal digits of a string, after the digits
accumulated so far. -/
def leadingDigits : List Char → Nat → Nat
  | [], acc => acc
  | c :: rest, acc =>
    if 48 ≤ c.toNat ∧ c.toNat ≤ 57 then leadingDigits rest (acc * 10 + (c.toNat - 48)) else acc

/-- The C library function `atoi`: leading white space is skipped, an optional
sign is read, then the leading decimal digits; without digits the value is 0.
Values outside the range of `int` are not modelled. -/
def atoi (s : List Char) : Int :=
  match s.dropWhile isSpaceC with
  | [] => 0
  | c :: rest =>
    if c = '-' then -((leadingDigits rest 0 : Nat) : Int)
    else if c = '+' then ((leadingDigits rest 0 : Nat) : Int)
    else ((leadingDigits (c :: rest) 0 : Nat) : Int)

/-- One result of `getopt_long`: the value it returns and `optarg`. -/
structure OptEvent where
  opt : Char
  optarg : Option (List Char)
deriving DecidableEq, Repr

/-- The table `long_options` of `parseCommandLineOptions`: name, whether the
option takes an (optional) argument, and the value returned. -/
def long_options : List (List Char × Bool × Char) :=
  [("system".toList, false, 's'), ("user".toList, false, 'u'),
   ("graphics".toList, false, 'g'), ("sequential".toList, false, 'a'),
   ("samples".toList, true, 'b'), ("tdelay".toList, true, 'c')]

/-- Whether the second string is an initial part of the first. -/
def startsWith : List Char → List Char → Bool
  | _, [] => true
  | [], _ :: _ => false
  | a :: as, b :: bs => a == b && startsWith as bs

/-- The text before the first `=` and, when there is one, the text after it. -/
def splitAtEquals : List Char → List Char × Option (List Char)
  | [] => ([], none)
  | c :: rest =>
    if c = '=' then ([], some rest)
    else ((c :: (splitAtEquals rest).1), (splitAtEquals rest).2)

/-- What `getopt_long` returns for an argument `--body`: the option whose name
is `body` up to `=`, or the only option that this text abbreviates; `?` for an
unknown or ambiguous name and for an argument given to an option that takes
none. -/
def scanLong (body : List Char) : OptEvent :=
  let name := (splitAtEquals body).1
  let value := (splitAtEquals body).2
  let exact := long_options.filter (fun o => o.1 == name)
  let candidates :=
    if exact.isEmpty then long_options.filter (fun o => startsWith o.1 name) else exact
  match candidates with
  | [o] =>
    if o.2.1 then ⟨o.2.2, value⟩
    else if value.isSome then ⟨'?', none⟩
    else ⟨o.2.2, none⟩
  | _ => ⟨'?', none⟩

/-- What `getopt_long` returns for the letters of an argument `-letters` with
the option string `"sugab::c::"`: `s`, `u`, `g`, `a` take no argument, `b` and
`c` take as optional argument the rest of the same word, any other letter
gives `?`. -/
def scanShort : List Char → List OptEvent
  | [] => []
  | c :: rest =>
    if c = 'b' ∨ c = 'c' then [⟨c, if rest.isEmpty then none else some rest⟩]
    else if c = 's' ∨ c = 'u' ∨ c = 'g' ∨ c = 'a' then ⟨c, none⟩ :: scanShort rest
    else ⟨'?', none⟩ :: scanShort rest

/-- The C library function `getopt_long` run to the end over `argv[1..]` with
the option string and the table of `parseCommandLineOptions`: the successive
results, and the arguments left from `optind` on (the words that are not
options, in order; a word `--` ends the options). -/
def getopt_long : List (List Char) → List OptEvent × List (List Char)
  | [] => ([], [])
  | arg :: rest =>
    if arg = ['-', '-'] then ([], rest)
    else
      match arg with
      | '-' :: c :: cs =>
        if c = '-' then (scanLong cs :: (getopt_long rest).1, (getopt_long rest).2)
        else (scanShort (c :: cs) ++ (getopt_long rest).1, (getopt_long rest).2)
      | _ => ((getopt_long rest).1, arg :: (getopt_long rest).2)

/-- The `switch (opt)` of `parseCommandLineOptions`. -/
def applyOption (options : ProgramOptions) (e : OptEvent) : ProgramOptions :=
  if e.opt = 's' then { options with system := 1 }
  else if e.opt = 'u' then { options with user := 1 }
  else if e.opt = 'g' then { options with graphics := 1 }
  else if e.opt = 'a' then { options with sequential := 1 }
  else if e.opt = 'b' then
    match e.optarg with
    | some arg => { options with samples := atoi arg }
    | none => options
  else if e.opt = 'c' then
    match e.optarg with
    | some arg => { options with tdelay := atoi arg }
    | none => options
  else options

/-- The loop over the remaining arguments: the first sets `samples`, the
second `tdelay`, further ones are ignored. -/
def applyPositionals (options : ProgramOptions) : Nat → List (List Char) → ProgramOptions
  | _, [] => options
  | i, arg :: rest =>
    applyPositionals
      (if i = 0 then { options with samples := atoi arg }
       else if i = 1 then { options with tdelay := atoi arg }
       else options)
      (i + 1) rest

/-- The body of `parseCommandLineOptions` after `getopt_long` has produced its
results and left the remaining arguments. -/
def parseOptionEvents (events : List OptEvent) (remaining : List (List Char)) :
    ProgramOptions :=
  applyPositionals
    (events.foldl applyOption
      { samples := DEFAULT_SAMPLES, tdelay := DEFAULT_DELAY, user := 0, system := 0,
        sequential := 0, graphics := 0 })
    0 remaining

/-- The function `parseCommandLineOptions(argc, argv)`; `argv` includes the
program name. -/
def parseCommandLineOptions (argv : List (List Char)) : ProgramOptions :=
  parseOptionEvents (getopt_long argv.tail).1 (getopt_long argv.tail).2

/-- The two mode functions that `main` chooses between. -/
inductive Mode where
  | sequential
  | nonsequential
deriving DecidableEq, Repr

/-- The choice of `main`: `if (options.sequential) runSequentialMode(...) else
runNonsequentialMode(...)`. -/
def mainMode (options : ProgramOptions) : Mode :=
  if options.sequential ≠ 0 then Mode.sequential else Mode.nonsequential

/-- The handling of the argument of `-r` / `--refresh` in `main`:
`refresh_rate = atoi(arg); if (refresh_rate <= 0) refresh_rate = DEFAULT_REFRESH_RATE;` -/
def refreshRate (arg : List Char) : Int :=
  let refresh_rate := atoi arg
  if refresh_rate ≤ 0 then DEFAULT_REFRESH_RATE else refresh_rate

/-! ## `get_system_uptime` (platform/platform_mac.c, platform/platform_linux.c) -/

/-- Conversion of a `long` value to `int`: the value itself when it fits, and
otherwise its reduction modulo `2 ^ 32` into the range of `int`. -/
def toInt32 (x : Int) : Int := (x + 2 ^ 31) % 2 ^ 32 - 2 ^ 31

/-- The function `get_system_uptime` of platform_mac.c. The argument is
`none` when `sysctl` fails and otherwise the `time_t` value
`now - boottime.tv_sec`; the result is `(*days, *hours, *minutes, *seconds)`.
Division and remainder of `time_t` truncate toward zero. -/
def get_system_uptime_mac (elapsed : Option Int) : Int × Int × Int × Int :=
  match elapsed with
  | none => (0, 0, 0, 0)
  | some uptime =>
    let days := toInt32 (uptime.tdiv (24 * 3600))
    let uptime := uptime.tmod (24 * 3600)
    let hours := toInt32 (uptime.tdiv 3600)
    let uptime := uptime.tmod 3600
    let minutes := toInt32 (uptime.tdiv 60)
    let seconds := toInt32 (uptime.tmod 60)
    (days, hours, minutes, seconds)

/-- The value of an `int` expression, `none` when it does not fit an `int`
(signed overflow, which C leaves undefined). -/
def checkedInt (x : Int) : Option Int :=
  if -(2 ^ 31) ≤ x ∧ x ≤ 2 ^ 31 - 1 then some x else none

/-- Conversion of a `double` to `int`: the fraction is dropped, and the result
is `none` when the integral part does not fit an `int` (undefined in C). -/
def doubleToInt (q : ℚ) : Option Int :=
  checkedInt (if 0 ≤ q then ⌊q⌋ else ⌈q⌉)

/-- The function `get_system_uptime` of platform_linux.c, from the value of
`uptime_secs` after the attempt to read `/proc/uptime` (0.0 when the file
cannot be opened or parsed):
`*days = uptime_secs / (24 * 3600); uptime_secs -= *days * 24 * 3600;
 *hours = uptime_secs / 3600; uptime_secs -= *hours * 3600;
 *minutes = uptime_secs / 60; *seconds = (int)uptime_secs % 60;`
The products are `int` products. The result is `none` when a step is
undefined. -/
def get_system_uptime_linux (uptime_secs : ℚ) : Option (Int × Int × Int × Int) :=
  (doubleToInt (uptime_secs / (24 * 3600))).bind fun days =>
  (checkedInt (days * 24)).bind fun days24 =>
  (checkedInt (days24 * 3600)).bind fun daySecs =>
  let uptime_secs := uptime_secs - (daySecs : ℚ)
  (doubleToInt (uptime_secs / 3600)).bind fun hours =>
  (checkedInt (hours * 3600)).bind fun hourSecs =>
  let uptime_secs := uptime_secs - (hourSecs : ℚ)
  (doubleToInt (uptime_secs / 60)).bind fun minutes =>
  (doubleToInt uptime_secs).bind fun whole =>
  some (days, hours, minutes, whole.tmod 60)

/-! ## The session table of `storeUserInfo` (core/user.c) -/

/-- The fields of a `struct utmp` / `struct utmpx` entry that `storeUserInfo`
reads; the three strings are given without their terminating NUL. -/
structure UtmpEntry where
  ut_type : Nat
  ut_user : List Nat
  ut_line : List Nat
  ut_host : List Nat
deriving DecidableEq, Repr

/-- The entry type `USER_PROCESS` of `<utmp.h>` / `<utmpx.h>`. -/
def USER_PROCESS : Nat := 7

/-- The text that the format `"%s\t %s (%s)\n"` describes for an entry:
user, TAB, space, line, space, `(`, host, `)`, newline. -/
def formatUserLine (e : UtmpEntry) : List Nat :=
  e.ut_user ++ [9, 32] ++ e.ut_line ++ [32, 40] ++ e.ut_host ++ [41, 10]

/-- What `snprintf(buffer, sizeof(buffer), ...)` leaves in `char buffer[256]`:
at most 255 bytes of the formatted text. -/
def userLineBuffer (e : UtmpEntry) : List Nat := (formatUserLine e).take 255

/-- The loop `while ((utmp = getutent()) != NULL)` of `storeUserInfo` over the
entries of the session table, from the current content of `all_users` and the
current `userLine_count`:
`strncat(all_users, buffer, sizeof(all_users) - strlen(all_users) - 1); userLine_count++;`
for every entry of type `USER_PROCESS`. -/
def collectUsers : List UtmpEntry → List Nat × Nat → List Nat × Nat
  | [], acc => acc
  | e :: rest, acc =>
    if e.ut_type = USER_PROCESS then
      collectUsers rest
        (acc.1 ++ (userLineBuffer e).take (MAX_USER_BUFFER - acc.1.length - 1), acc.2 + 1)
    else collectUsers rest acc

/-- The blob `all_users` that `storeUserInfo` has built when its loop ends. -/
def userBlob (entries : List UtmpEntry) : List Nat := (collectUsers entries ([], 0)).1

/-- The function `storeUserInfo` on a session table: the loop, then the
writes. -/
def storeUserInfoOfTable (utmpname_ok : Bool) (entries : List UtmpEntry) (ok : Nat → Bool) :
    List Action :=
  storeUserInfo utmpname_ok (collectUsers entries ([], 0)).2 (userBlob entries) ok

/-- The index `bytesRead` of the store `buffer[bytesRead] = 0` in
`printUserInfo`, when that store is executed. -/
def printUserInfo_terminatorIndex (p : Pipe) : Option Nat :=
  if (p.read 8).1 ≤ 0 ∨ announcedLength p > MAX_USER_BUFFER then none
  else if (payloadRead p).1 > 0 then some (payloadRead p).2.1.length
  else none

/-! ## The loops of the mode functions -/

/-- The successive iterations of a mode function: what each of `samples`
rounds does, from the state in which the loop starts. -/
def runRounds (round : Consumer → RoundOutput × Consumer) : Nat → Consumer → List RoundOutput
  | 0, _ => []
  | samples + 1, c => (round c).1 :: runRounds round samples (round c).2

/-- The state of the consumer after the given number of rounds. -/
def afterRounds (round : Consumer → RoundOutput × Consumer) : Nat → Consumer → Consumer
  | 0, c => c
  | samples + 1, c => afterRounds round samples (round c).2

/-- The loop of `runSequentialMode`. -/
def runSequentialMode (samples : Nat) (user system : Bool) (c : Consumer) : List RoundOutput :=
  runRounds (sequentialRound user system) samples c

/-- The loop of `runNonsequentialMode`. -/
def runNonsequentialMode (samples : Nat) (user system : Bool) (c : Consumer) :
    List RoundOutput :=
  runRounds (nonsequentialRound user system) samples c

/-- The lines as they leave the 256-byte buffer, one per entry of type
`USER_PROCESS`, in the order of the table, one after the other. -/
def bufferedLines : List UtmpEntry → List Nat
  | [] => []
  | e :: rest =>
    if e.ut_type = USER_PROCESS then userLineBuffer e ++ bufferedLines rest
    else bufferedLines rest

/-- The concatenation the specification describes: one whole formatted line per
entry of type `USER_PROCESS`, in the order of the table. -/
def formattedLines : List UtmpEntry → List Nat
  | [] => []
  | e :: rest =>
    if e.ut_type = USER_PROCESS then formatUserLine e ++ formattedLines rest
    else formattedLines rest

/-! ## Auxiliary facts -/

theorem fdiv_of_ne_zero (a b : ℚ) (hb : b ≠ 0) : fdiv a b = some (a / b) := by
  simp [fdiv, hb]

theorem clamp_chain_eq (x : ℚ) :
    (if x < 0 then 0 else if x > 100 then 100 else x) = clampPct x := by
  unfold clampPct
  split_ifs with h1 h2
  · rw [min_eq_right (by linarith), max_eq_left (le_of_lt h1)]
  · rw [min_eq_left (le_of_lt h2), max_eq_right (by norm_num)]
  · rw [min_eq_right (by linarith), max_eq_right (by linarith)]

theorem clampPct_bounds (x : ℚ) : 0 ≤ clampPct x ∧ clampPct x ≤ 100 := by
  unfold clampPct
  exact ⟨le_max_left _ _, max_le (by norm_num) (min_le_left _ _)⟩

theorem clampPct_of_mem (x : ℚ) (h0 : 0 ≤ x) (h1 : x ≤ 100) : clampPct x = x := by
  unfold clampPct
  rw [min_eq_right h1, max_eq_right h0]

theorem fieldDiff_self (c : Nat) : fieldDiff c c = 0 := by
  simp [fieldDiff]

theorem fieldDiff_of_lt (c p : Nat) (h : c < p) : fieldDiff c p = 0 := by
  unfold fieldDiff
  rw [if_neg (by omega)]

theorem uadd_of_lt (a b : Nat) (h : a + b < 2 ^ 64) : uadd a b = a + b := by
  unfold uadd
  exact Nat.mod_eq_of_lt h

theorem usub_of_le (a b : Nat) (hb : b ≤ a) (ha : a < 2 ^ 64) : usub a b = a - b := by
  unfold usub
  omega

theorem directUsage_eq (curr : CpuStats) :
    directUsage curr =
      some (if curr.total4 = 0 then 0
        else 100 - (curr.idle : ℚ) * 100 / (curr.total4 : ℚ)) := by
  unfold directUsage
  by_cases h : curr.total4 = 0
  · simp [h]
  · have hq : (curr.total4 : ℚ) ≠ 0 := Nat.cast_ne_zero.mpr h
    simp [h, fdiv_of_ne_zero _ _ hq]

theorem calculateCPUUsage_later (st : CpuState) (prev curr : CpuStats)
    (hrun : st.first_run = false) (htot : totalDiffOf prev curr ≠ 0) :
    calculateCPUUsage st prev curr =
      (some (clampPct (((usub (totalDiffOf prev curr) (fieldDiff curr.idle prev.idle) : Nat) : ℚ)
          * 100 / (totalDiffOf prev curr : ℚ))),
        { st with prev_cpu_usage := curr }) := by
  have hq : (totalDiffOf prev curr : ℚ) ≠ 0 := Nat.cast_ne_zero.mpr htot
  unfold totalDiffOf at htot hq
  simp only [calculateCPUUsage, hrun, Bool.false_eq_true, if_false, htot,
    fdiv_of_ne_zero _ _ hq, clamp_chain_eq, totalDiffOf]

theorem calculateCPUUsage_zero_delta (st : CpuState) (prev curr : CpuStats)
    (hrun : st.first_run = false) (htot : totalDiffOf prev curr = 0) :
    calculateCPUUsage st prev curr = (directUsage curr, st) := by
  unfold totalDiffOf at htot
  simp only [calculateCPUUsage, hrun, Bool.false_eq_true, if_false, htot, if_true]

theorem total4_of_lt (c : CpuStats) (h : c.user + c.nice + c.system + c.idle < 2 ^ 64) :
    c.total4 = c.user + c.nice + c.system + c.idle := by
  unfold CpuStats.total4 uadd
  omega

theorem totalDiffOf_self (c : CpuStats) : totalDiffOf c c = 0 := by
  simp [totalDiffOf, fieldDiff_self, uadd]

theorem totalDiffOf_of_lt (prev curr : CpuStats)
    (h : fieldDiff curr.user prev.user + fieldDiff curr.nice prev.nice +
      fieldDiff curr.system prev.system + fieldDiff curr.idle prev.idle < 2 ^ 64) :
    totalDiffOf prev curr =
      fieldDiff curr.user prev.user + fieldDiff curr.nice prev.nice +
        fieldDiff curr.system prev.system + fieldDiff curr.idle prev.idle := by
  unfold totalDiffOf uadd
  omega

/-- The direct method stays between 0 and 100 when the sum of the four
current counters does not wrap. -/
theorem directUsage_bounds (curr : CpuStats)
    (h : curr.user + curr.nice + curr.system + curr.idle < 2 ^ 64) :
    ∃ v, directUsage curr = some v ∧ 0 ≤ v ∧ v ≤ 100 := by
  refine ⟨_, directUsage_eq curr, ?_⟩
  by_cases h0 : curr.total4 = 0
  · simp [h0]
  · rw [if_neg h0]
    have hpos : (0 : ℚ) < (curr.total4 : ℚ) := Nat.cast_pos.mpr (Nat.pos_of_ne_zero h0)
    have hle : (curr.idle : ℚ) ≤ (curr.total4 : ℚ) := by
      rw [total4_of_lt curr h]
      exact_mod_cast (by omega : curr.idle ≤ curr.user + curr.nice + curr.system + curr.idle)
    have hidle : (0 : ℚ) ≤ (curr.idle : ℚ) := Nat.cast_nonneg _
    have h1 : (curr.idle : ℚ) * 100 / (curr.total4 : ℚ) ≤ 100 := by
      rw [div_le_iff₀ hpos]
      nlinarith
    have h2 : 0 ≤ (curr.idle : ℚ) * 100 / (curr.total4 : ℚ) := by positivity
    constructor <;> linarith

/-- Away from wrap-around of the sum of the current counters,
`calculateCPUUsage` returns a value between 0 and 100 in either state. -/
theorem calculateCPUUsage_bounds_of_no_wrap (st : CpuState) (prev curr : CpuStats)
    (h : curr.user + curr.nice + curr.system + curr.idle < 2 ^ 64) :
    ∃ v, (calculateCPUUsage st prev curr).1 = some v ∧ 0 ≤ v ∧ v ≤ 100 := by
  cases hrun : st.first_run with
  | true =>
    have : (calculateCPUUsage st prev curr).1 = directUsage curr := by
      simp [calculateCPUUsage, hrun]
    rw [this]
    exact directUsage_bounds curr h
  | false =>
    by_cases htot : totalDiffOf prev curr = 0
    · rw [calculateCPUUsage_zero_delta st prev curr hrun htot]
      exact directUsage_bounds curr h
    · rw [calculateCPUUsage_later st prev curr hrun htot]
      exact ⟨_, rfl, clampPct_bounds _⟩

/-! ## `calculateCPUUsage`: the claims -/

/-- C1: on its first call, with the previous sample all zero and the current
sample (2^64 - 1, 0, 0, 2, 0, 0, 0), which is component-wise at least the
previous one and fits the counter type, the sum of the four counters wraps to 1
and `calculateCPUUsage` returns -100, a value outside the range 0 to 100. -/
theorem calculateCPUUsage_first_call_wrapped_sum :
    CpuStats.le CpuStats.zero ⟨2 ^ 64 - 1, 0, 0, 2, 0, 0, 0⟩ ∧
    CpuStats.inRange ⟨2 ^ 64 - 1, 0, 0, 2, 0, 0, 0⟩ ∧
    CpuStats.total4 ⟨2 ^ 64 - 1, 0, 0, 2, 0, 0, 0⟩ = 1 ∧
    (calculateCPUUsage CpuState.init CpuStats.zero ⟨2 ^ 64 - 1, 0, 0, 2, 0, 0, 0⟩).1
      = some (-100) := by
  have ht : CpuStats.total4 ⟨2 ^ 64 - 1, 0, 0, 2, 0, 0, 0⟩ = 1 := by
    simp [CpuStats.total4, uadd]
  refine ⟨by decide, by decide, ht, ?_⟩
  simp only [calculateCPUUsage, CpuState.init, if_true, directUsage_eq, ht]
  norm_num

/-- C2 (as stated, refuted): after the first call, with prev all zero and
curr = (2^63, 2^63, 0, 0, 0, 0, 0), every counter fits 64 bits and curr is not
below prev, the four differences are 2^63, 2^63, 0, 0 and their sum 2^64 is not
0, so the formula of the claim gives 100 * (2^64 - 0) / 2^64 = 100; but the
code adds the differences in `unsigned long`, gets 0, takes the direct method,
whose sum of the current counters is 0 as well, and returns 0. -/
theorem calculateCPUUsage_delta_sum_wraps :
    CpuStats.inRange CpuStats.zero ∧
    CpuStats.inRange ⟨2 ^ 63, 2 ^ 63, 0, 0, 0, 0, 0⟩ ∧
    CpuStats.le CpuStats.zero ⟨2 ^ 63, 2 ^ 63, 0, 0, 0, 0, 0⟩ ∧
    fieldDiff (2 ^ 63) 0 + fieldDiff (2 ^ 63) 0 + fieldDiff 0 0 + fieldDiff 0 0 = 2 ^ 64 ∧
    fieldDiff (2 ^ 63) 0 + fieldDiff (2 ^ 63) 0 + fieldDiff 0 0 + fieldDiff 0 0 ≠ 0 ∧
    clampPct (100 *
        (((fieldDiff (2 ^ 63) 0 + fieldDiff (2 ^ 63) 0 + fieldDiff 0 0 + fieldDiff 0 0 : Nat) : ℚ)
          - (fieldDiff 0 0 : ℚ))
        / ((fieldDiff (2 ^ 63) 0 + fieldDiff (2 ^ 63) 0 + fieldDiff 0 0 + fieldDiff 0 0 : Nat) : ℚ))
      = 100 ∧
    (calculateCPUUsage ⟨CpuStats.zero, false⟩ CpuStats.zero
      ⟨2 ^ 63, 2 ^ 63, 0, 0, 0, 0, 0⟩).1 = some 0 := by
  have hs : fieldDiff (2 ^ 63) 0 + fieldDiff (2 ^ 63) 0 + fieldDiff 0 0 + fieldDiff 0 0
      = 2 ^ 64 := by
    simp [fieldDiff]
  have hd : totalDiffOf CpuStats.zero ⟨2 ^ 63, 2 ^ 63, 0, 0, 0, 0, 0⟩ = 0 := by
    simp [totalDiffOf, CpuStats.zero, fieldDiff, uadd]
  have ht : CpuStats.total4 ⟨2 ^ 63, 2 ^ 63, 0, 0, 0, 0, 0⟩ = 0 := by
    simp [CpuStats.total4, uadd]
  refine ⟨by decide, by decide, by decide, hs, by rw [hs]; norm_num, ?_, ?_⟩
  · rw [hs, fieldDiff_self]
    rw [clampPct_of_mem] <;> norm_num
  · rw [calculateCPUUsage_zero_delta _ _ _ rfl hd, directUsage_eq, ht]
    simp

/-- C2 (amended): on every call after the first one, with the guarded
differences d_x (curr_x - prev_x when curr_x >= prev_x, else 0) of user, nice,
system and idle, whose sum total_delta = d_user + d_nice + d_system + d_idle is
not 0 and is below 2^64 (the sum of the code, an `unsigned long`, then does
not wrap), the result is `100 * (total_delta - d_idle) / total_delta`
restricted to the range 0 to 100; and for prev = (100, 0, 0, 900),
curr = (150, 0, 0, 950) the result is exactly 50. -/
theorem calculateCPUUsage_delta_formula (st : CpuState) (prev curr : CpuStats)
    (hrun : st.first_run = false)
    (hne : fieldDiff curr.user prev.user + fieldDiff curr.nice prev.nice +
        fieldDiff curr.system prev.system + fieldDiff curr.idle prev.idle ≠ 0)
    (hlt : fieldDiff curr.user prev.user + fieldDiff curr.nice prev.nice +
        fieldDiff curr.system prev.system + fieldDiff curr.idle prev.idle < 2 ^ 64) :
    (calculateCPUUsage st prev curr).1 =
      some (clampPct (100 *
        (((fieldDiff curr.user prev.user + fieldDiff curr.nice prev.nice +
            fieldDiff curr.system prev.system + fieldDiff curr.idle prev.idle : Nat) : ℚ)
          - (fieldDiff curr.idle prev.idle : ℚ))
        / ((fieldDiff curr.user prev.user + fieldDiff curr.nice prev.nice +
            fieldDiff curr.system prev.system + fieldDiff curr.idle prev.idle : Nat) : ℚ))) ∧
    (calculateCPUUsage st ⟨100, 0, 0, 900, prev.iowait, prev.irq, prev.softirq⟩
        ⟨150, 0, 0, 950, curr.iowait, curr.irq, curr.softirq⟩).1 = some 50 := by
  have hT := totalDiffOf_of_lt prev curr hlt
  have htot : totalDiffOf prev curr ≠ 0 := by
    rw [hT]
    exact hne
  refine ⟨?_, ?_⟩
  · rw [calculateCPUUsage_later st prev curr hrun htot, hT,
      usub_of_le _ _ (by omega) hlt, mul_comm]
    rw [Nat.cast_sub (by omega)]
  · have hne' : totalDiffOf ⟨100, 0, 0, 900, prev.iowait, prev.irq, prev.softirq⟩
        ⟨150, 0, 0, 950, curr.iowait, curr.irq, curr.softirq⟩ ≠ 0 := by
      simp [totalDiffOf, fieldDiff, uadd]
    rw [calculateCPUUsage_later st _ _ hrun hne']
    simp only [totalDiffOf, fieldDiff, uadd, usub]
    rw [clampPct_of_mem] <;> norm_num

/-- Witness of C2 (amended): the example of the specification, whose
differences 50, 0, 0, 50 add up to 100, gives 100 * (100 - 50) / 100 = 50. -/
theorem calculateCPUUsage_delta_formula_witness :
    (⟨CpuStats.zero, false⟩ : CpuState).first_run = false ∧
    fieldDiff 150 100 + fieldDiff 0 0 + fieldDiff 0 0 + fieldDiff 950 900 ≠ 0 ∧
    fieldDiff 150 100 + fieldDiff 0 0 + fieldDiff 0 0 + fieldDiff 950 900 < 2 ^ 64 ∧
    (calculateCPUUsage ⟨CpuStats.zero, false⟩ ⟨100, 0, 0, 900, 0, 0, 0⟩
      ⟨150, 0, 0, 950, 0, 0, 0⟩).1 = some 50 :=
  ⟨rfl, by decide, by decide,
    (calculateCPUUsage_delta_formula ⟨CpuStats.zero, false⟩ ⟨100, 0, 0, 900, 0, 0, 0⟩
      ⟨150, 0, 0, 950, 0, 0, 0⟩ rfl (by decide) (by decide)).2⟩

/-- C4 (as stated, refuted): after the first call, with
curr = prev = (2^63, 0, 0, 2^63, 0, 0, 0), every counter fits 64 bits, the four
differences are 0, and the sum user + nice + system + idle of the current
sample is 2^64, not 0, so the claim gives 100 - 2^63 * 100 / 2^64 = 50; but the
code adds the counters in `unsigned long`, gets 0, and returns 0. -/
theorem calculateCPUUsage_zero_delta_sum_wraps :
    CpuStats.inRange ⟨2 ^ 63, 0, 0, 2 ^ 63, 0, 0, 0⟩ ∧
    fieldDiff (2 ^ 63) (2 ^ 63) + fieldDiff 0 0 + fieldDiff 0 0 +
      fieldDiff (2 ^ 63) (2 ^ 63) = 0 ∧
    (⟨2 ^ 63, 0, 0, 2 ^ 63, 0, 0, 0⟩ : CpuStats).user +
      (⟨2 ^ 63, 0, 0, 2 ^ 63, 0, 0, 0⟩ : CpuStats).nice +
      (⟨2 ^ 63, 0, 0, 2 ^ 63, 0, 0, 0⟩ : CpuStats).system +
      (⟨2 ^ 63, 0, 0, 2 ^ 63, 0, 0, 0⟩ : CpuStats).idle = 2 ^ 64 ∧
    (100 : ℚ) - ((2 ^ 63 : Nat) : ℚ) * 100 / ((2 ^ 63 + 0 + 0 + 2 ^ 63 : Nat) : ℚ) = 50 ∧
    (calculateCPUUsage ⟨CpuStats.zero, false⟩ ⟨2 ^ 63, 0, 0, 2 ^ 63, 0, 0, 0⟩
      ⟨2 ^ 63, 0, 0, 2 ^ 63, 0, 0, 0⟩).1 = some 0 := by
  have ht : CpuStats.total4 ⟨2 ^ 63, 0, 0, 2 ^ 63, 0, 0, 0⟩ = 0 := by
    simp [CpuStats.total4, uadd]
  refine ⟨by decide, by simp [fieldDiff], by norm_num, by norm_num, ?_⟩
  rw [calculateCPUUsage_zero_delta _ _ _ rfl (totalDiffOf_self _), directUsage_eq, ht]
  simp

/-- C4 (amended): on every call after the first one in which the guarded
differences of user, nice, system and idle add up to 0, no division by zero
happens (the call returns a value), and when the sum
user + nice + system + idle of the current sample is below 2^64 that value is 0
if the sum is 0 and `100 - idle * 100 / (user + nice + system + idle)` on the
current sample otherwise; every call with curr equal to prev is such a call. -/
theorem calculateCPUUsage_zero_delta_direct (st : CpuState) (prev curr : CpuStats)
    (hrun : st.first_run = false)
    (hzero : fieldDiff curr.user prev.user + fieldDiff curr.nice prev.nice +
        fieldDiff curr.system prev.system + fieldDiff curr.idle prev.idle = 0) :
    (∃ v, (calculateCPUUsage st prev curr).1 = some v) ∧
    (curr.user + curr.nice + curr.system + curr.idle < 2 ^ 64 →
      (calculateCPUUsage st prev curr).1 =
        some (if curr.user + curr.nice + curr.system + curr.idle = 0 then 0
          else 100 - (curr.idle : ℚ) * 100 /
            ((curr.user + curr.nice + curr.system + curr.idle : Nat) : ℚ))) ∧
    fieldDiff curr.user curr.user + fieldDiff curr.nice curr.nice +
        fieldDiff curr.system curr.system + fieldDiff curr.idle curr.idle = 0 ∧
    (curr.user + curr.nice + curr.system + curr.idle < 2 ^ 64 →
      (calculateCPUUsage st curr curr).1 =
        some (if curr.user + curr.nice + curr.system + curr.idle = 0 then 0
          else 100 - (curr.idle : ℚ) * 100 /
            ((curr.user + curr.nice + curr.system + curr.idle : Nat) : ℚ))) := by
  have htot : totalDiffOf prev curr = 0 := by
    rw [totalDiffOf_of_lt prev curr (by rw [hzero]; norm_num)]
    exact hzero
  refine ⟨?_, ?_, by simp [fieldDiff_self], ?_⟩
  · rw [calculateCPUUsage_zero_delta st prev curr hrun htot, directUsage_eq]
    exact ⟨_, rfl⟩
  · intro hlt
    rw [calculateCPUUsage_zero_delta st prev curr hrun htot, directUsage_eq,
      total4_of_lt curr hlt]
  · intro hlt
    rw [calculateCPUUsage_zero_delta st curr curr hrun (totalDiffOf_self curr), directUsage_eq,
      total4_of_lt curr hlt]

/-- Witness of C4 (amended): the sample (100, 0, 0, 900) seen twice gives
100 - 900 * 100 / 1000 = 10. -/
theorem calculateCPUUsage_zero_delta_direct_witness :
    (⟨CpuStats.zero, false⟩ : CpuState).first_run = false ∧
    fieldDiff 100 100 + fieldDiff 0 0 + fieldDiff 0 0 + fieldDiff 900 900 = 0 ∧
    (calculateCPUUsage ⟨CpuStats.zero, false⟩ ⟨100, 0, 0, 900, 0, 0, 0⟩
      ⟨100, 0, 0, 900, 0, 0, 0⟩).1 = some 10 := by
  refine ⟨rfl, by decide, ?_⟩
  rw [(calculateCPUUsage_zero_delta_direct ⟨CpuStats.zero, false⟩ ⟨100, 0, 0, 900, 0, 0, 0⟩
    ⟨100, 0, 0, 900, 0, 0, 0⟩ rfl (by decide)).2.1 (by decide)]
  norm_num

/-- C5: after the first call, with prev = (2^64 - 1, 5, 0, 9, 0, 0, 0) and
curr = (2^64 - 1, 0, 0, 2, 0, 0, 0), the regressed fields nice and idle each
contribute a difference of 0 and the total difference is 0, but the sum of the
current counters wraps to 1 and `calculateCPUUsage` returns -100, a negative
value. -/
theorem calculateCPUUsage_regression_wrapped_sum :
    CpuStats.inRange ⟨2 ^ 64 - 1, 5, 0, 9, 0, 0, 0⟩ ∧
    CpuStats.inRange ⟨2 ^ 64 - 1, 0, 0, 2, 0, 0, 0⟩ ∧
    fieldDiff 0 5 = 0 ∧ fieldDiff 2 9 = 0 ∧
    totalDiffOf ⟨2 ^ 64 - 1, 5, 0, 9, 0, 0, 0⟩ ⟨2 ^ 64 - 1, 0, 0, 2, 0, 0, 0⟩ = 0 ∧
    (calculateCPUUsage ⟨CpuStats.zero, false⟩ ⟨2 ^ 64 - 1, 5, 0, 9, 0, 0, 0⟩
      ⟨2 ^ 64 - 1, 0, 0, 2, 0, 0, 0⟩).1 = some (-100) := by
  have hd : totalDiffOf ⟨2 ^ 64 - 1, 5, 0, 9, 0, 0, 0⟩ ⟨2 ^ 64 - 1, 0, 0, 2, 0, 0, 0⟩ = 0 := by
    simp [totalDiffOf, fieldDiff, uadd]
  have ht : CpuStats.total4 ⟨2 ^ 64 - 1, 0, 0, 2, 0, 0, 0⟩ = 1 := by
    simp [CpuStats.total4, uadd]
  refine ⟨by decide, by decide, by decide, by decide, hd, ?_⟩
  rw [calculateCPUUsage_zero_delta _ _ _ rfl hd, directUsage_eq, ht]
  norm_num

/-- C6 (as stated, refuted): on the first call with
curr = (2^63, 0, 0, 2^63, 0, 0, 0), whose counters fit 64 bits, the sum
user + nice + system + idle is 2^64, not 0, so the claim gives
100 - 2^63 * 100 / 2^64 = 50; but the code adds the counters in
`unsigned long`, gets 0, and returns 0. With curr = (2^64 - 1, 0, 0, 2, 0, 0, 0)
the sum is 2^64 + 1 and the claim's value is above 99, while the code's sum is
1 and it returns -100. -/
theorem calculateCPUUsage_first_call_sum_wraps :
    CpuStats.inRange ⟨2 ^ 63, 0, 0, 2 ^ 63, 0, 0, 0⟩ ∧
    (⟨2 ^ 63, 0, 0, 2 ^ 63, 0, 0, 0⟩ : CpuStats).user +
      (⟨2 ^ 63, 0, 0, 2 ^ 63, 0, 0, 0⟩ : CpuStats).nice +
      (⟨2 ^ 63, 0, 0, 2 ^ 63, 0, 0, 0⟩ : CpuStats).system +
      (⟨2 ^ 63, 0, 0, 2 ^ 63, 0, 0, 0⟩ : CpuStats).idle = 2 ^ 64 ∧
    (100 : ℚ) - ((2 ^ 63 : Nat) : ℚ) * 100 / ((2 ^ 63 + 0 + 0 + 2 ^ 63 : Nat) : ℚ) = 50 ∧
    (calculateCPUUsage CpuState.init CpuStats.zero ⟨2 ^ 63, 0, 0, 2 ^ 63, 0, 0, 0⟩).1
      = some 0 ∧
    CpuStats.inRange ⟨2 ^ 64 - 1, 0, 0, 2, 0, 0, 0⟩ ∧
    (99 : ℚ) < 100 - ((2 : Nat) : ℚ) * 100 / ((2 ^ 64 - 1 + 0 + 0 + 2 : Nat) : ℚ) ∧
    (calculateCPUUsage CpuState.init CpuStats.zero ⟨2 ^ 64 - 1, 0, 0, 2, 0, 0, 0⟩).1
      = some (-100) := by
  have ht : CpuStats.total4 ⟨2 ^ 63, 0, 0, 2 ^ 63, 0, 0, 0⟩ = 0 := by
    simp [CpuStats.total4, uadd]
  have ht' : CpuStats.total4 ⟨2 ^ 64 - 1, 0, 0, 2, 0, 0, 0⟩ = 1 := by
    simp [CpuStats.total4, uadd]
  refine ⟨by decide, by norm_num, by norm_num, ?_, by decide, by norm_num, ?_⟩
  · simp only [calculateCPUUsage, CpuState.init, if_true, directUsage_eq, ht]
  · simp only [calculateCPUUsage, CpuState.init, if_true, directUsage_eq, ht']
    norm_num

/-- C6 (amended): on the first call (`first_run` set), when the sum
user + nice + system + idle of the current sample is below 2^64, the result is
the bootstrap value of the current sample, 0 when that sum is 0 and
`100 - idle * 100 / (user + nice + system + idle)` otherwise; and for every
current sample the result is the same for every previous-sample argument and
every stored baseline (the function keeps no smoothing state). -/
theorem calculateCPUUsage_first_call (baseline prev curr : CpuStats)
    (hlt : curr.user + curr.nice + curr.system + curr.idle < 2 ^ 64) :
    (calculateCPUUsage ⟨baseline, true⟩ prev curr).1 =
      some (if curr.user + curr.nice + curr.system + curr.idle = 0 then 0
        else 100 - (curr.idle : ℚ) * 100 /
          ((curr.user + curr.nice + curr.system + curr.idle : Nat) : ℚ)) ∧
    (∀ (baseline' prev' curr' : CpuStats),
      (calculateCPUUsage ⟨baseline', true⟩ prev' curr').1 =
        (calculateCPUUsage ⟨baseline, true⟩ prev curr').1) := by
  have h : ∀ b p c, (calculateCPUUsage ⟨b, true⟩ p c).1 = directUsage c := by
    intro b p c
    simp [calculateCPUUsage]
  refine ⟨?_, ?_⟩
  · rw [h, directUsage_eq, total4_of_lt curr hlt]
  · intro b p c
    rw [h, h]

/-- Witness of C6 (amended): the first call on the sample (100, 0, 0, 900)
gives 100 - 900 * 100 / 1000 = 10, whatever the previous-sample argument. -/
theorem calculateCPUUsage_first_call_witness :
    (⟨100, 0, 0, 900, 0, 0, 0⟩ : CpuStats).user + (⟨100, 0, 0, 900, 0, 0, 0⟩ : CpuStats).nice +
      (⟨100, 0, 0, 900, 0, 0, 0⟩ : CpuStats).system +
      (⟨100, 0, 0, 900, 0, 0, 0⟩ : CpuStats).idle < 2 ^ 64 ∧
    (calculateCPUUsage CpuState.init ⟨7, 7, 7, 7, 0, 0, 0⟩ ⟨100, 0, 0, 900, 0, 0, 0⟩).1
      = some 10 := by
  refine ⟨by decide, ?_⟩
  have h := (calculateCPUUsage_first_call CpuStats.zero ⟨7, 7, 7, 7, 0, 0, 0⟩
    ⟨100, 0, 0, 900, 0, 0, 0⟩ (by decide)).1
  simp only [CpuState.init]
  rw [h]
  norm_num

/-! ## `update_system_data`: auxiliary facts and claims -/

theorem rawUsage_eq_clampPct (total_delta idle_delta : Nat) :
    rawUsage total_delta idle_delta =
      clampPct (100 * ((usub total_delta idle_delta : Nat) : ℚ) / (total_delta : ℚ)) := by
  unfold rawUsage
  rw [← clamp_chain_eq]
  simp only
  split_ifs <;> first | rfl | linarith

theorem rawUsage_bounds (total_delta idle_delta : Nat) :
    0 ≤ rawUsage total_delta idle_delta ∧ rawUsage total_delta idle_delta ≤ 100 := by
  rw [rawUsage_eq_clampPct]
  exact clampPct_bounds _

/-- With a previous value above 5 and a raw value that is not negative, each
of the three blends is at least 2.5. -/
theorem smooth_ge_of_last (last raw : ℚ) (hl : 5 < last) (hr : 0 ≤ raw) :
    (5 / 2 : ℚ) < smooth last raw := by
  unfold smooth
  split_ifs <;> norm_num <;> linarith

theorem candidateUsage_of_delta (st : GuiCpuState) (reading : CpuStats)
    (hs : 0 < st.samples_collected) (ht : 0 < totalDiffOf st.curr_stats reading) :
    candidateUsage st reading =
      smooth st.last_cpu_usage
        (rawUsage (totalDiffOf st.curr_stats reading)
          (fieldDiff reading.idle st.curr_stats.idle)) := by
  unfold totalDiffOf at ht
  simp only [candidateUsage, gt_iff_lt, hs, ht, if_true, totalDiffOf]

/-- C7: the value `update_system_data` emits is its candidate passed through
the floor guard, and whenever the candidate is below 2 while the previously
emitted value is above 5 the guard yields 0.7 times the previous value; for a
previous value 40 and a candidate 1 it yields 28. -/
theorem floorGuard_decay (cpu_usage last_cpu_usage : ℚ)
    (hlow : cpu_usage < 2) (hlast : 5 < last_cpu_usage) :
    floorGuard cpu_usage last_cpu_usage = (7 / 10) * last_cpu_usage ∧
    floorGuard 1 40 = 28 ∧
    (∀ (st : GuiCpuState) (reading : CpuStats),
      (update_system_data st reading).1 =
        floorGuard (candidateUsage st reading) st.last_cpu_usage) := by
  refine ⟨?_, ?_, fun _ _ => rfl⟩
  · unfold floorGuard
    rw [if_pos ⟨hlow, hlast⟩]
    norm_num
    ring
  · unfold floorGuard
    norm_num

/-- Witness of C7: candidate 1 and previous value 40. -/
theorem floorGuard_decay_witness :
    (1 : ℚ) < 2 ∧ (5 : ℚ) < 40 ∧ floorGuard 1 40 = (7 / 10) * 40 :=
  ⟨by norm_num, by norm_num, (floorGuard_decay 1 40 (by norm_num) (by norm_num)).1⟩

/-! ## Memory figures: the claim -/

/-- C10: for every reading the conversion of `storeMemoryInfo` gives
phys_total_gb = totalram / 2^30, phys_used_gb = (totalram - freeram) / 2^30 and
a swap-used term (swap_total_gb - swap_free_gb, the part of virtual_used_gb
beyond phys_used_gb) of (totalswap - freeswap) / 2^30; for total 16 * 2^30,
free 4 * 2^30 and swap total = swap free = 2 * 2^30 bytes it gives physical
used 12, swap used 0, virtual used 12 and virtual total 18. -/
theorem memoryFigures_conversion (sys_info : SysInfo) :
    (memoryFigures sys_info).phys_total_gb = (sys_info.totalram : ℚ) / 2 ^ 30 ∧
    (memoryFigures sys_info).phys_used_gb =
      ((sys_info.totalram : ℚ) - (sys_info.freeram : ℚ)) / 2 ^ 30 ∧
    (memoryFigures sys_info).swap_total_gb - (memoryFigures sys_info).swap_free_gb =
      ((sys_info.totalswap : ℚ) - (sys_info.freeswap : ℚ)) / 2 ^ 30 ∧
    (memoryFigures sys_info).virtual_used_gb - (memoryFigures sys_info).phys_used_gb =
      ((sys_info.totalswap : ℚ) - (sys_info.freeswap : ℚ)) / 2 ^ 30 ∧
    (memoryFigures ⟨16 * 2 ^ 30, 4 * 2 ^ 30, 2 * 2 ^ 30, 2 * 2 ^ 30⟩).phys_used_gb = 12 ∧
    (memoryFigures ⟨16 * 2 ^ 30, 4 * 2 ^ 30, 2 * 2 ^ 30, 2 * 2 ^ 30⟩).swap_total_gb -
      (memoryFigures ⟨16 * 2 ^ 30, 4 * 2 ^ 30, 2 * 2 ^ 30, 2 * 2 ^ 30⟩).swap_free_gb = 0 ∧
    (memoryFigures ⟨16 * 2 ^ 30, 4 * 2 ^ 30, 2 * 2 ^ 30, 2 * 2 ^ 30⟩).virtual_used_gb = 12 ∧
    (memoryFigures ⟨16 * 2 ^ 30, 4 * 2 ^ 30, 2 * 2 ^ 30, 2 * 2 ^ 30⟩).virtual_total_gb = 18 := by
  have hB : ((BYTES_PER_GB : Nat) : ℚ) = 2 ^ 30 := by
    unfold BYTES_PER_GB
    norm_num
  refine ⟨?_, ?_, ?_, ?_, ?_, ?_, ?_, ?_⟩ <;> simp only [memoryFigures, hB] <;>
    ring

/-! ## Pipes: auxiliary facts -/

theorem encodeLE_length (k n : Nat) : (encodeLE k n).length = k := by
  induction k generalizing n with
  | zero => rfl
  | succ k ih => simp [encodeLE, ih]

theorem decodeLE_encodeLE (k n : Nat) : decodeLE (encodeLE k n) = n % 256 ^ k := by
  induction k generalizing n with
  | zero => simp [encodeLE, decodeLE, Nat.mod_one]
  | succ k ih =>
    simp only [encodeLE, decodeLE, ih]
    rw [pow_succ, mul_comm (256 ^ k) 256, Nat.mod_mul]

theorem decodeLE_header (n : Nat) (h : n < 2 ^ 64) :
    decodeLE (encodeLE 8 (n % 2 ^ 64)) = n := by
  rw [decodeLE_encodeLE, Nat.mod_eq_of_lt h]
  exact Nat.mod_eq_of_lt (by norm_num; omega)

theorem deliversWhole_tail (bound : Nat) (sched : List Delivery)
    (h : deliversWhole bound sched) : deliversWhole bound sched.tail := by
  intro d hd
  exact h d (List.mem_of_mem_tail hd)

theorem Pipe.read_whole (bound count : Nat) (data : List Nat) (sched : List Delivery)
    (h : deliversWhole bound sched) (hc : count ≤ bound) :
    Pipe.read ⟨data, sched⟩ count =
      (((data.take count).length : Int), data.take count, ⟨data.drop count, sched.tail⟩) := by
  cases sched with
  | nil => rfl
  | cons d rest =>
    obtain ⟨n, rfl, hn⟩ := h d (List.mem_cons_self _ _)
    have hmin : min count n = count := min_eq_left (le_trans hc hn)
    simp [Pipe.read, hmin]

theorem Pipe.read_length (p : Pipe) (count : Nat) (h : 0 ≤ (p.read count).1) :
    (p.read count).1 = ((p.read count).2.1.length : Int) := by
  obtain ⟨data, sched⟩ := p
  cases sched with
  | nil => rfl
  | cons d rest =>
    cases d with
    | chunk n => rfl
    | fault => simp [Pipe.read] at h

/-- One round on a pipe that starts with a framed string and is delivered
whole: the payload is accepted and the pipe stands at the next message. -/
theorem readMemoryMessage_frame (str rest : List Nat) (sched : List Delivery)
    (hlen : str.length + 1 < MAX_MEMORY_BUFFER)
    (h : deliversWhole MAX_MEMORY_BUFFER sched) :
    readMemoryMessage ⟨frame str ++ rest, sched⟩ =
      (some (payload str), ⟨rest, sched.tail.tail⟩) := by
  have hM : MAX_MEMORY_BUFFER = 1024 := rfl
  have hdata : frame str ++ rest
      = encodeLE 8 ((str.length + 1) % 2 ^ 64) ++ ((str ++ [0]) ++ rest) := by
    simp [frame]
  have hdec : decodeLE (encodeLE 8 ((str.length + 1) % 2 ^ 64)) = str.length + 1 :=
    decodeLE_header _ (by omega)
  have hpl : (str ++ [0]).length = str.length + 1 := by simp
  have h1 : Pipe.read ⟨frame str ++ rest, sched⟩ 8 =
      ((8 : Int), encodeLE 8 ((str.length + 1) % 2 ^ 64),
        ⟨(str ++ [0]) ++ rest, sched.tail⟩) := by
    rw [Pipe.read_whole MAX_MEMORY_BUFFER 8 _ _ h (by omega), hdata,
      List.take_left' (encodeLE_length _ _), List.drop_left' (encodeLE_length _ _),
      encodeLE_length]
    rfl
  have h2 : Pipe.read ⟨(str ++ [0]) ++ rest, sched.tail⟩ (str.length + 1) =
      (((str.length + 1 : Nat) : Int), str ++ [0], ⟨rest, sched.tail.tail⟩) := by
    rw [Pipe.read_whole MAX_MEMORY_BUFFER _ _ _ (deliversWhole_tail _ _ h) (by omega),
      List.take_left' hpl, List.drop_left' hpl, hpl]
  unfold readMemoryMessage
  simp only [h1, hdec, h2, payload]
  rw [if_pos ⟨by norm_num, by omega, hlen⟩, if_pos (by positivity)]

/-- A framed string of 1023 bytes announces 1024, which the memory reader
refuses: the round shows nothing and the payload stays in the pipe. -/
theorem readMemoryMessage_frame_full_buffer (str rest : List Nat)
    (hlen : str.length + 1 = MAX_MEMORY_BUFFER) :
    readMemoryMessage ⟨frame str ++ rest, []⟩ = (none, ⟨(str ++ [0]) ++ rest, []⟩) := by
  have hM : MAX_MEMORY_BUFFER = 1024 := rfl
  have hdata : frame str ++ rest
      = encodeLE 8 ((str.length + 1) % 2 ^ 64) ++ ((str ++ [0]) ++ rest) := by
    simp [frame]
  have hdec : decodeLE (encodeLE 8 ((str.length + 1) % 2 ^ 64)) = str.length + 1 :=
    decodeLE_header _ (by omega)
  have h1 : Pipe.read ⟨frame str ++ rest, []⟩ 8 =
      ((8 : Int), encodeLE 8 ((str.length + 1) % 2 ^ 64), ⟨(str ++ [0]) ++ rest, []⟩) := by
    rw [Pipe.read_whole 8 8 _ _ (by intro d hd; cases hd) le_rfl, hdata,
      List.take_left' (encodeLE_length _ _), List.drop_left' (encodeLE_length _ _),
      encodeLE_length]
    rfl
  unfold readMemoryMessage
  simp only [h1, hdec]
  rw [if_neg (by omega)]

/-! ## Framing: the claims -/

/-- C8 (as stated, refuted): the writer sends the strings "ab" and "c"; the
transport only splits the stream (prefix read whole, then one byte of the
payload) and the two memory reads yield the one byte "a" and nothing, not the
two payloads; and a string of 1023 bytes is not recovered even when every read
is delivered whole. -/
theorem framing_round_trip_fails :
    onlySplits [Delivery.chunk 8, Delivery.chunk 1] ∧
    readMemoryRounds 2 ⟨storeMemoryInfo_stream [[97, 98], [99]],
      [Delivery.chunk 8, Delivery.chunk 1]⟩ = [some [97], none] ∧
    readMemoryRounds 2 ⟨storeMemoryInfo_stream [[97, 98], [99]],
      [Delivery.chunk 8, Delivery.chunk 1]⟩ ≠ [some (payload [97, 98]), some (payload [99])] ∧
    readMemoryRounds 1 ⟨storeMemoryInfo_stream [List.replicate 1023 65], []⟩
      ≠ [some (payload (List.replicate 1023 65))] := by
  have h1 : readMemoryRounds 2 ⟨storeMemoryInfo_stream [[97, 98], [99]],
      [Delivery.chunk 8, Delivery.chunk 1]⟩ = [some [97], none] := by decide
  refine ⟨?_, h1, ?_, ?_⟩
  · intro d hd
    simp only [List.mem_cons, List.mem_singleton, List.not_mem_nil, or_false] at hd
    rcases hd with rfl | rfl
    · exact ⟨8, rfl, by norm_num⟩
    · exact ⟨1, rfl, by norm_num⟩
  · rw [h1]
    decide
  · have hfull : readMemoryRounds 1 ⟨storeMemoryInfo_stream [List.replicate 1023 65], []⟩
        = [none] := by
      show [(readMemoryMessage ⟨frame (List.replicate 1023 65) ++ [], []⟩).1] = [none]
      rw [readMemoryMessage_frame_full_buffer (List.replicate 1023 65) []
        (by rw [List.length_replicate]; rfl)]
    rw [hfull]
    intro hne
    cases hne

/-- C8 (amended): for every sequence of strings shorter than 1023 bytes, framed
by the writer of `storeMemoryInfo`, and every transport that delivers each read
in full, the successive memory reads of the consumer recover the payloads
byte for byte and in order. -/
theorem framing_round_trip_whole_delivery (strs : List (List Nat)) (sched : List Delivery)
    (hlen : ∀ s ∈ strs, s.length + 1 < MAX_MEMORY_BUFFER)
    (h : deliversWhole MAX_MEMORY_BUFFER sched) :
    readMemoryRounds strs.length ⟨storeMemoryInfo_stream strs, sched⟩ =
      strs.map (fun s => some (payload s)) := by
  induction strs generalizing sched with
  | nil => rfl
  | cons s rest ih =>
    have hs : s.length + 1 < MAX_MEMORY_BUFFER := hlen s (List.mem_cons_self _ _)
    have hrest : ∀ t ∈ rest, t.length + 1 < MAX_MEMORY_BUFFER :=
      fun t ht => hlen t (List.mem_cons_of_mem _ ht)
    have hround := readMemoryMessage_frame s (storeMemoryInfo_stream rest) sched hs h
    simp only [List.length_cons, readMemoryRounds, storeMemoryInfo_stream, hround,
      List.map_cons]
    rw [ih _ hrest (deliversWhole_tail _ _ (deliversWhole_tail _ _ h))]

/-- Witness of C8 (amended): the strings "ab" and "c" over a transport whose
reads deliver up to 1024, 4096 and 2000 bytes. -/
theorem framing_round_trip_whole_delivery_witness :
    (∀ s ∈ [[97, 98], [99]], s.length + 1 < MAX_MEMORY_BUFFER) ∧
    deliversWhole MAX_MEMORY_BUFFER
      [Delivery.chunk 1024, Delivery.chunk 4096, Delivery.chunk 2000] ∧
    readMemoryRounds 2 ⟨storeMemoryInfo_stream [[97, 98], [99]],
      [Delivery.chunk 1024, Delivery.chunk 4096, Delivery.chunk 2000]⟩ =
      [some [97, 98, 0], some [99, 0]] := by
  have hl : ∀ s ∈ [[97, 98], [99]], s.length + 1 < MAX_MEMORY_BUFFER := by
    intro s hs
    simp only [List.mem_cons, List.mem_singleton, List.not_mem_nil, or_false] at hs
    rcases hs with rfl | rfl <;> simp [MAX_MEMORY_BUFFER]
  have hd : deliversWhole MAX_MEMORY_BUFFER
      [Delivery.chunk 1024, Delivery.chunk 4096, Delivery.chunk 2000] := by
    intro d hd
    simp only [List.mem_cons, List.mem_singleton, List.not_mem_nil, or_false] at hd
    rcases hd with rfl | rfl | rfl
    · exact ⟨1024, rfl, by simp [MAX_MEMORY_BUFFER]⟩
    · exact ⟨4096, rfl, by simp [MAX_MEMORY_BUFFER]⟩
    · exact ⟨2000, rfl, by simp [MAX_MEMORY_BUFFER]⟩
  exact ⟨hl, hd, framing_round_trip_whole_delivery [[97, 98], [99]] _ hl hd⟩

/-- C9 (as stated, refuted): the prefix announces 3 bytes and the payload read
returns 1 byte; the memory reader and `printUserInfo` both accept that one
byte as the message, read no further and report no failure, and the other two
bytes stay in the pipe. -/
theorem short_payload_read_accepted_example :
    announcedLength ⟨frame [97, 98], [Delivery.chunk 8, Delivery.chunk 1]⟩ = 3 ∧
    (payloadRead ⟨frame [97, 98], [Delivery.chunk 8, Delivery.chunk 1]⟩).1 = 1 ∧
    readMemoryMessage ⟨frame [97, 98], [Delivery.chunk 8, Delivery.chunk 1]⟩
      = (some [97], ⟨[98, 0], []⟩) ∧
    printUserInfo ⟨frame [97, 98], [Delivery.chunk 8, Delivery.chunk 1]⟩
      = (UserOutput.sessions [97], ⟨[98, 0], []⟩) := by
  decide

/-- C9 (amended): whenever the prefix read succeeds and the payload read
returns k bytes with 0 < k < len, len being the announced length, the consumer
accepts exactly those k bytes as the message and leaves the pipe as that read
left it: the memory reader when len is below 1024, `printUserInfo` when len is
at most 4096. -/
theorem short_payload_read_accepted (p : Pipe) (k : Nat)
    (hhdr : 0 < (p.read 8).1)
    (hk : (payloadRead p).1 = (k : Int))
    (hpos : 0 < k) (hshort : k < announcedLength p) :
    (payloadRead p).2.1.length = k ∧
    (announcedLength p < MAX_MEMORY_BUFFER →
      readMemoryMessage p = (some (payloadRead p).2.1, (payloadRead p).2.2)) ∧
    (announcedLength p ≤ MAX_USER_BUFFER →
      printUserInfo p = (UserOutput.sessions (payloadRead p).2.1, (payloadRead p).2.2)) := by
  have hkpos : (0 : Int) < (payloadRead p).1 := by
    rw [hk]
    exact_mod_cast hpos
  refine ⟨?_, ?_, ?_⟩
  · have := Pipe.read_length (p.read 8).2.2 (announcedLength p) (le_of_lt hkpos)
    unfold payloadRead at hk ⊢
    rw [hk] at this
    exact_mod_cast this.symm
  · intro hmem
    unfold payloadRead announcedLength at *
    unfold readMemoryMessage
    simp only
    rw [if_pos ⟨hhdr, by omega, hmem⟩, if_pos hkpos]
  · intro husr
    unfold payloadRead announcedLength at *
    unfold printUserInfo
    simp only
    rw [if_neg (by
      rintro (h | h)
      · omega
      · omega), if_pos hkpos]

/-- Witness of C9 (amended): prefix 3, payload read of 1 byte. -/
theorem short_payload_read_accepted_witness :
    0 < (Pipe.read ⟨frame [97, 98], [Delivery.chunk 8, Delivery.chunk 1]⟩ 8).1 ∧
    (payloadRead ⟨frame [97, 98], [Delivery.chunk 8, Delivery.chunk 1]⟩).1 = ((1 : Nat) : Int) ∧
    0 < 1 ∧
    1 < announcedLength ⟨frame [97, 98], [Delivery.chunk 8, Delivery.chunk 1]⟩ ∧
    (payloadRead ⟨frame [97, 98], [Delivery.chunk 8, Delivery.chunk 1]⟩).2.1.length = 1 :=
  ⟨by decide, by decide, by decide, by decide,
    (short_payload_read_accepted ⟨frame [97, 98], [Delivery.chunk 8, Delivery.chunk 1]⟩ 1
      (by decide) (by decide) (by decide) (by decide)).1⟩

/-! ## Memory figures: the range of the physical usage -/

/-- C11 (as stated, refuted): for the reading totalram = 2^30 and
freeram = 2 * 2^30 bytes the physical usage computed by `storeMemoryInfo` is
-1 GB, below 0: the value is not clamped. -/
theorem memoryFigures_used_negative :
    (memoryFigures ⟨2 ^ 30, 2 * 2 ^ 30, 0, 0⟩).phys_used_gb = -1 ∧
    ¬ (0 ≤ (memoryFigures ⟨2 ^ 30, 2 * 2 ^ 30, 0, 0⟩).phys_used_gb) := by
  have h : (memoryFigures ⟨2 ^ 30, 2 * 2 ^ 30, 0, 0⟩).phys_used_gb = -1 := by
    simp only [memoryFigures, BYTES_PER_GB]
    norm_num
  refine ⟨h, ?_⟩
  rw [h]
  norm_num

/-- C11 (amended): for every reading the physical usage computed by
`storeMemoryInfo` is at most the physical total, and it is not clamped at 0:
it is at least 0 exactly when freeram is at most totalram, and always equals
(totalram - freeram) / 2^30. -/
theorem memoryFigures_used_bounds (sys_info : SysInfo) :
    (memoryFigures sys_info).phys_used_gb ≤ (memoryFigures sys_info).phys_total_gb ∧
    (0 ≤ (memoryFigures sys_info).phys_used_gb ↔ sys_info.freeram ≤ sys_info.totalram) ∧
    (memoryFigures sys_info).phys_used_gb =
      ((sys_info.totalram : ℚ) - (sys_info.freeram : ℚ)) / 2 ^ 30 := by
  have hB : ((BYTES_PER_GB : Nat) : ℚ) = 2 ^ 30 := by
    unfold BYTES_PER_GB
    norm_num
  have hpos : (0 : ℚ) < 2 ^ 30 := by positivity
  have hused : (memoryFigures sys_info).phys_used_gb =
      ((sys_info.totalram : ℚ) - (sys_info.freeram : ℚ)) / 2 ^ 30 := by
    simp only [memoryFigures, hB]
    ring
  have htot : (memoryFigures sys_info).phys_total_gb = (sys_info.totalram : ℚ) / 2 ^ 30 := by
    simp only [memoryFigures, hB]
  have hfree : (0 : ℚ) ≤ (sys_info.freeram : ℚ) := Nat.cast_nonneg _
  refine ⟨?_, ?_, hused⟩
  · rw [hused, htot]
    exact div_le_div_of_nonneg_right (by linarith) (le_of_lt hpos)
  · rw [hused, div_nonneg_iff]
    constructor
    · rintro (⟨h, _⟩ | ⟨_, h⟩)
      · exact_mod_cast (sub_nonneg.mp h)
      · linarith
    · intro h
      left
      exact ⟨sub_nonneg.mpr (by exact_mod_cast h), le_of_lt hpos⟩

/-! ## `update_system_data`: the range of the smoothed percentage -/

theorem smooth_bounds (last raw : ℚ) (hl0 : 0 ≤ last) (hl1 : last ≤ 100)
    (hr0 : 0 ≤ raw) (hr1 : raw ≤ 100) :
    0 ≤ smooth last raw ∧ smooth last raw ≤ 100 := by
  unfold smooth
  split_ifs <;> constructor <;> norm_num <;> linarith

theorem candidateUsage_bounds (st : GuiCpuState) (reading : CpuStats)
    (h0 : 0 ≤ st.last_cpu_usage) (h1 : st.last_cpu_usage ≤ 100) :
    0 ≤ candidateUsage st reading ∧ candidateUsage st reading ≤ 100 := by
  unfold candidateUsage
  simp only
  split_ifs
  · exact smooth_bounds _ _ h0 h1 (rawUsage_bounds _ _).1 (rawUsage_bounds _ _).2
  · exact ⟨h0, h1⟩
  · exact ⟨h0, h1⟩

theorem floorGuard_bounds (cpu_usage last : ℚ) (hc0 : 0 ≤ cpu_usage) (hc1 : cpu_usage ≤ 100)
    (hl1 : last ≤ 100) :
    0 ≤ floorGuard cpu_usage last ∧ floorGuard cpu_usage last ≤ 100 := by
  unfold floorGuard
  split_ifs
  · constructor <;> norm_num <;> linarith
  · exact ⟨hc0, hc1⟩

/-- One call keeps the stored percentage between 0 and 100. -/
theorem update_system_data_bounds (st : GuiCpuState) (reading : CpuStats)
    (h0 : 0 ≤ st.last_cpu_usage) (h1 : st.last_cpu_usage ≤ 100) :
    0 ≤ (update_system_data st reading).1 ∧ (update_system_data st reading).1 ≤ 100 := by
  have hc := candidateUsage_bounds st reading h0 h1
  exact floorGuard_bounds _ _ hc.1 hc.2 h1

theorem runUpdates_bounds (st : GuiCpuState) (readings : List CpuStats)
    (h0 : 0 ≤ st.last_cpu_usage) (h1 : st.last_cpu_usage ≤ 100) :
    0 ≤ (runUpdates st readings).last_cpu_usage ∧
      (runUpdates st readings).last_cpu_usage ≤ 100 := by
  induction readings generalizing st with
  | nil => exact ⟨h0, h1⟩
  | cons r rest ih =>
    have hb := update_system_data_bounds st r h0 h1
    exact ih (update_system_data st r).2 hb.1 hb.2

/-- C12: starting from the initial statics of `update_system_data` (last
emitted value 15, no sample collected), after every finite sequence of calls
with arbitrary counter samples the stored percentage lies between 0 and 100,
and so does the value emitted (and then stored) by one more call. -/
theorem update_system_data_domain (readings : List CpuStats) (reading : CpuStats) :
    0 ≤ (runUpdates GuiCpuState.init readings).last_cpu_usage ∧
    (runUpdates GuiCpuState.init readings).last_cpu_usage ≤ 100 ∧
    0 ≤ (update_system_data (runUpdates GuiCpuState.init readings) reading).1 ∧
    (update_system_data (runUpdates GuiCpuState.init readings) reading).1 ≤ 100 ∧
    (update_system_data (runUpdates GuiCpuState.init readings) reading).2.last_cpu_usage =
      (update_system_data (runUpdates GuiCpuState.init readings) reading).1 := by
  have hinit0 : (0 : ℚ) ≤ GuiCpuState.init.last_cpu_usage := by
    simp [GuiCpuState.init]
  have hinit1 : GuiCpuState.init.last_cpu_usage ≤ (100 : ℚ) := by
    simp only [GuiCpuState.init]
    norm_num
  have hb := runUpdates_bounds GuiCpuState.init readings hinit0 hinit1
  have hu := update_system_data_bounds (runUpdates GuiCpuState.init readings) reading hb.1 hb.2
  exact ⟨hb.1, hb.2, hu.1, hu.2, rfl⟩

/-! ## `get_cpu_stats` -/

theorem get_cpu_stats_linux_of_short (cpu_usage : CpuStats) (converted : List Nat)
    (h : converted.length < 7) :
    get_cpu_stats_linux cpu_usage (some converted) = CpuStats.zero := by
  have ht : (converted.take 7).length ≠ 7 := by
    rw [List.length_take]
    omega
  simp only [get_cpu_stats_linux, ht, ne_eq, not_false_eq_true, if_true]

theorem get_cpu_stats_linux_of_full (cpu_usage : CpuStats) (converted : List Nat)
    (h : 7 ≤ converted.length) :
    get_cpu_stats_linux cpu_usage (some converted) = CpuStats.ofList (converted.take 7) := by
  have ht : (converted.take 7).length = 7 := by
    rw [List.length_take]
    omega
  simp only [get_cpu_stats_linux, storeConverted, ht, ne_eq, not_true_eq_false, if_false]
  simp [CpuStats.toList]

/-- C16: the Linux `get_cpu_stats` always returns an array, and it is all or
nothing: when `/proc/stat` cannot be opened or fewer than seven counters are
converted every slot is 0, and when seven are converted the slots are exactly
those seven values; the content the array had before the call never shows. -/
theorem get_cpu_stats_linux_all_or_nothing (cpu_usage : CpuStats) (converted : List Nat) :
    get_cpu_stats_linux cpu_usage none = CpuStats.zero ∧
    (converted.length < 7 →
      get_cpu_stats_linux cpu_usage (some converted) = CpuStats.zero) ∧
    (converted.length = 7 →
      (get_cpu_stats_linux cpu_usage (some converted)).toList = converted) ∧
    (∀ (other : CpuStats) (proc_stat : Option (List Nat)),
      get_cpu_stats_linux other proc_stat = get_cpu_stats_linux cpu_usage proc_stat) := by
  refine ⟨rfl, get_cpu_stats_linux_of_short cpu_usage converted, ?_, ?_⟩
  · intro h
    rw [get_cpu_stats_linux_of_full cpu_usage converted (le_of_eq h.symm)]
    match converted, h with
    | [a, b, c, d, e, f, g], _ => rfl
  · intro other proc_stat
    cases proc_stat with
    | none => rfl
    | some vals =>
      rcases Nat.lt_or_ge vals.length 7 with h | h
      · rw [get_cpu_stats_linux_of_short other vals h,
          get_cpu_stats_linux_of_short cpu_usage vals h]
      · rw [get_cpu_stats_linux_of_full other vals h,
          get_cpu_stats_linux_of_full cpu_usage vals h]

/-- C17 (as stated, refuted): with platform_mac.c, two successive calls of
`get_cpu_stats` that observe the same tick counters (500 user, 200 system,
9000 idle, 10 nice) return different arrays: the first (10, 1, 1, 100, 0, 0, 0),
the second (0, 0, 0, 95, 0, 0, 0). -/
theorem get_cpu_stats_mac_same_reading_differs :
    (get_cpu_stats_mac MacCpuState.init (some ⟨500, 200, 9000, 10⟩)).1
      = ⟨10, 1, 1, 100, 0, 0, 0⟩ ∧
    (get_cpu_stats_mac (get_cpu_stats_mac MacCpuState.init (some ⟨500, 200, 9000, 10⟩)).2
      (some ⟨500, 200, 9000, 10⟩)).1 = ⟨0, 0, 0, 95, 0, 0, 0⟩ ∧
    (get_cpu_stats_mac MacCpuState.init (some ⟨500, 200, 9000, 10⟩)).1 ≠
      (get_cpu_stats_mac (get_cpu_stats_mac MacCpuState.init (some ⟨500, 200, 9000, 10⟩)).2
        (some ⟨500, 200, 9000, 10⟩)).1 := by
  decide

/-- C17 (amended): `get_cpu_stats` of platform_darwin.c is a query without
state, its result being the four tick counters of the reading followed by three
zeros (all zeros when the kernel call fails). `get_cpu_stats` of platform_mac.c
keeps the previous reading: its result is all zeros when the kernel call fails,
the fixed array (10, 1, 1, 100, 0, 0, 0) on the first successful call whatever
the reading, and afterwards the 32-bit differences between the reading and the
stored one (idle replaced by 95 when they add up to 0), after which the reading
is the stored one. -/
theorem get_cpu_stats_statefulness (host : HostCpuLoad) (stored : HostCpuLoad)
    (st : MacCpuState) :
    get_cpu_stats_darwin (some host) = ⟨host.user, host.nice, host.system, host.idle, 0, 0, 0⟩ ∧
    get_cpu_stats_darwin none = CpuStats.zero ∧
    get_cpu_stats_mac st none = (CpuStats.zero, st) ∧
    get_cpu_stats_mac ⟨stored, false⟩ (some host) = (⟨10, 1, 1, 100, 0, 0, 0⟩, ⟨host, true⟩) ∧
    get_cpu_stats_mac ⟨stored, true⟩ (some host) =
      (⟨tickDiff host.user stored.user, tickDiff host.nice stored.nice,
        tickDiff host.system stored.system,
        (if uadd (uadd (uadd (tickDiff host.user stored.user) (tickDiff host.nice stored.nice))
            (tickDiff host.system stored.system)) (tickDiff host.idle stored.idle) = 0
          then 95 else tickDiff host.idle stored.idle), 0, 0, 0⟩,
        ⟨host, true⟩) :=
  ⟨rfl, rfl, rfl, rfl, rfl⟩

/-! ## The CPU channels -/

theorem decodeCpuStats_append (a0 a1 a2 a3 a4 a5 a6 : List Nat)
    (h0 : a0.length = 8) (h1 : a1.length = 8) (h2 : a2.length = 8) (h3 : a3.length = 8)
    (h4 : a4.length = 8) (h5 : a5.length = 8) (h6 : a6.length = 8) :
    decodeCpuStats (a0 ++ (a1 ++ (a2 ++ (a3 ++ (a4 ++ (a5 ++ a6)))))) =
      ⟨decodeLE a0, decodeLE a1, decodeLE a2, decodeLE a3, decodeLE a4, decodeLE a5,
        decodeLE a6⟩ := by
  have d8 : ∀ (a : List Nat) (X : List Nat) (n : Nat), a.length = 8 →
      (a ++ X).drop (n + 8) = X.drop n := by
    intro a X n h
    rw [Nat.add_comm, ← List.drop_drop, List.drop_left' h]
  have e16 : (16 : Nat) = 8 + 8 := rfl
  have e24 : (24 : Nat) = 16 + 8 := rfl
  have e32 : (32 : Nat) = 24 + 8 := rfl
  have e40 : (40 : Nat) = 32 + 8 := rfl
  have e48 : (48 : Nat) = 40 + 8 := rfl
  have e8 : (8 : Nat) = 0 + 8 := rfl
  unfold decodeCpuStats
  congr 1
  · rw [List.take_left' h0]
  · rw [List.drop_left' h0, List.take_left' h1]
  · rw [e16, d8 _ _ _ h0, List.drop_left' h1, List.take_left' h2]
  · rw [e24, d8 _ _ _ h0, e16, d8 _ _ _ h1, List.drop_left' h2, List.take_left' h3]
  · rw [e32, d8 _ _ _ h0, e24, d8 _ _ _ h1, e16, d8 _ _ _ h2, List.drop_left' h3,
      List.take_left' h4]
  · rw [e40, d8 _ _ _ h0, e32, d8 _ _ _ h1, e24, d8 _ _ _ h2, e16, d8 _ _ _ h3,
      List.drop_left' h4, List.take_left' h5]
  · rw [e48, d8 _ _ _ h0, e40, d8 _ _ _ h1, e32, d8 _ _ _ h2, e24, d8 _ _ _ h3, e16,
      d8 _ _ _ h4, List.drop_left' h5]
    exact congrArg decodeLE (List.take_of_length_le (le_of_eq h6))

theorem decodeLE_encodeLE_word (n : Nat) (h : n < 2 ^ 64) : decodeLE (encodeLE 8 n) = n := by
  rw [decodeLE_encodeLE]
  exact Nat.mod_eq_of_lt (by norm_num; omega)

theorem storeCPUInfo_bytes_length (c : CpuStats) : (storeCPUInfo_bytes c).length = 56 := by
  simp [storeCPUInfo_bytes, encodeLE_length]

theorem decodeCpuStats_storeCPUInfo_bytes (c : CpuStats) (h : c.inRange) :
    decodeCpuStats (storeCPUInfo_bytes c) = c := by
  obtain ⟨h0, h1, h2, h3, h4, h5, h6⟩ := h
  unfold storeCPUInfo_bytes
  simp only [List.append_assoc]
  rw [decodeCpuStats_append _ _ _ _ _ _ _ (encodeLE_length _ _) (encodeLE_length _ _)
    (encodeLE_length _ _) (encodeLE_length _ _) (encodeLE_length _ _) (encodeLE_length _ _)
    (encodeLE_length _ _)]
  simp only [decodeLE_encodeLE_word _ h0, decodeLE_encodeLE_word _ h1,
    decodeLE_encodeLE_word _ h2, decodeLE_encodeLE_word _ h3, decodeLE_encodeLE_word _ h4,
    decodeLE_encodeLE_word _ h5, decodeLE_encodeLE_word _ h6]

/-- C18 (as stated, refuted): the sample (1, 2, 3, 4, 5, 6, 7) is written by
`storeCPUInfo` as 56 bytes that begin with the bytes of the user counter 1;
nothing announcing the length 56 precedes them, so the bytes on the wire are
not the 64 bytes of a framed message. -/
theorem storeCPUInfo_not_framed :
    (storeCPUInfo_bytes ⟨1, 2, 3, 4, 5, 6, 7⟩).length = 56 ∧
    (storeCPUInfo_bytes ⟨1, 2, 3, 4, 5, 6, 7⟩).take 8 = encodeLE 8 1 ∧
    (storeCPUInfo_bytes ⟨1, 2, 3, 4, 5, 6, 7⟩).take 8 ≠ encodeLE 8 56 ∧
    storeCPUInfo_bytes ⟨1, 2, 3, 4, 5, 6, 7⟩ ≠
      encodeLE 8 56 ++ storeCPUInfo_bytes ⟨1, 2, 3, 4, 5, 6, 7⟩ := by
  decide

/-- C18 (amended): every CPU sample written by `storeCPUInfo` is exactly 56
bytes on the wire, the seven counters in the order user, nice, system, idle,
iowait, irq, softirq, 8 bytes each, with no length before them; one read of 56
bytes by the consumer, when the transport delivers it whole, recovers the seven
counters and leaves the pipe at the next sample. -/
theorem storeCPUInfo_wire_format (cpu_usage before : CpuStats) (rest : List Nat)
    (sched : List Delivery) (hr : cpu_usage.inRange) (hw : deliversWhole 56 sched) :
    (storeCPUInfo_bytes cpu_usage).length = 56 ∧
    storeCPUInfo_bytes cpu_usage =
      encodeLE 8 cpu_usage.user ++ encodeLE 8 cpu_usage.nice ++ encodeLE 8 cpu_usage.system ++
        encodeLE 8 cpu_usage.idle ++ encodeLE 8 cpu_usage.iowait ++ encodeLE 8 cpu_usage.irq ++
        encodeLE 8 cpu_usage.softirq ∧
    readCpuArray before ⟨storeCPUInfo_bytes cpu_usage ++ rest, sched⟩ =
      (cpu_usage, ⟨rest, sched.tail⟩) := by
  have hlen := storeCPUInfo_bytes_length cpu_usage
  refine ⟨hlen, rfl, ?_⟩
  unfold readCpuArray
  simp only [Pipe.read_whole 56 56 _ _ hw le_rfl, List.take_left' hlen, List.drop_left' hlen,
    hlen]
  have hb : (storeCPUInfo_bytes before).drop 56 = [] :=
    List.drop_of_length_le (le_of_eq (storeCPUInfo_bytes_length before))
  rw [hb, List.append_nil, decodeCpuStats_storeCPUInfo_bytes cpu_usage hr]

/-- Witness of C18 (amended): the sample (1, 2, 3, 4, 5, 6, 258) followed by
further bytes, read into an array that held nines. -/
theorem storeCPUInfo_wire_format_witness :
    CpuStats.inRange ⟨1, 2, 3, 4, 5, 6, 258⟩ ∧
    deliversWhole 56 [Delivery.chunk 56] ∧
    readCpuArray ⟨9, 9, 9, 9, 9, 9, 9⟩
      ⟨storeCPUInfo_bytes ⟨1, 2, 3, 4, 5, 6, 258⟩ ++ [7, 7], [Delivery.chunk 56]⟩ =
      (⟨1, 2, 3, 4, 5, 6, 258⟩, ⟨[7, 7], []⟩) := by
  have hw : deliversWhole 56 [Delivery.chunk 56] := by
    intro d hd
    simp only [List.mem_singleton] at hd
    exact ⟨56, hd, le_rfl⟩
  exact ⟨by decide, hw,
    (storeCPUInfo_wire_format ⟨1, 2, 3, 4, 5, 6, 258⟩ ⟨9, 9, 9, 9, 9, 9, 9⟩ [7, 7]
      [Delivery.chunk 56] (by decide) hw).2.2⟩

/-! ## The rounds of the consumer: the order of the reads -/

theorem memoryReadCalls_cases (p : Pipe) :
    memoryReadCalls p = [Channel.memory] ∨
      memoryReadCalls p = [Channel.memory, Channel.memory] := by
  unfold memoryReadCalls
  split_ifs
  · exact Or.inr rfl
  · exact Or.inl rfl

theorem userReadCalls_cases (p : Pipe) :
    userReadCalls p = [Channel.users] ∨ userReadCalls p = [Channel.users, Channel.users] := by
  unfold userReadCalls
  split_ifs
  · exact Or.inl rfl
  · exact Or.inr rfl

/-- C13 (as stated, refuted): in a round that shows both sections (neither
flag set), with a framed message waiting on the memory and user pipes and one
sample on each CPU pipe, `runSequentialMode` reads memory, users, CPU-previous,
CPU-current and `runNonsequentialMode` reads users, CPU-previous, CPU-current,
memory; neither order is CPU-previous, CPU-current, memory, users. -/
theorem round_read_order_example :
    (sequentialRound false false
      ⟨⟨⟨storeCPUInfo_bytes ⟨1, 2, 3, 4, 5, 6, 7⟩, []⟩, ⟨storeCPUInfo_bytes ⟨2, 2, 3, 5, 5, 6, 7⟩, []⟩,
        ⟨frame [117], []⟩, ⟨frame [97, 98], []⟩⟩, CpuStats.zero, CpuStats.zero,
        CpuState.init⟩).1.reads =
      [Channel.memory, Channel.memory, Channel.users, Channel.users, Channel.cpuPrev,
        Channel.cpuCurr] ∧
    (nonsequentialRound false false
      ⟨⟨⟨storeCPUInfo_bytes ⟨1, 2, 3, 4, 5, 6, 7⟩, []⟩, ⟨storeCPUInfo_bytes ⟨2, 2, 3, 5, 5, 6, 7⟩, []⟩,
        ⟨frame [117], []⟩, ⟨frame [97, 98], []⟩⟩, CpuStats.zero, CpuStats.zero,
        CpuState.init⟩).1.reads =
      [Channel.users, Channel.users, Channel.cpuPrev, Channel.cpuCurr, Channel.memory,
        Channel.memory] ∧
    readOrder [Channel.memory, Channel.memory, Channel.users, Channel.users, Channel.cpuPrev,
        Channel.cpuCurr] ≠
      [Channel.cpuPrev, Channel.cpuCurr, Channel.memory, Channel.users] ∧
    readOrder [Channel.users, Channel.users, Channel.cpuPrev, Channel.cpuCurr, Channel.memory,
        Channel.memory] ≠
      [Channel.cpuPrev, Channel.cpuCurr, Channel.memory, Channel.users] := by
  decide

/-- C13 (amended): in every round in which both the memory/CPU section and the
user section are displayed, `runSequentialMode` reads the channels in the
order memory, users, CPU-previous, CPU-current and `runNonsequentialMode` in
the order users, CPU-previous, CPU-current, memory. -/
theorem round_read_order (user system : Bool) (c : Consumer)
    (hsys : (!user || (user && system)) = true)
    (husr : ((user && system) || !system) = true) :
    readOrder (sequentialRound user system c).1.reads =
      [Channel.memory, Channel.users, Channel.cpuPrev, Channel.cpuCurr] ∧
    readOrder (nonsequentialRound user system c).1.reads =
      [Channel.users, Channel.cpuPrev, Channel.cpuCurr, Channel.memory] := by
  have hs : (sequentialRound user system c).1.reads =
      memoryReadCalls c.pipes.memFD ++ userReadCalls c.pipes.userFD ++
        [Channel.cpuPrev, Channel.cpuCurr] := by
    simp only [sequentialRound, hsys, husr, if_true]
  have hn : (nonsequentialRound user system c).1.reads =
      userReadCalls c.pipes.userFD ++ [Channel.cpuPrev, Channel.cpuCurr] ++
        memoryReadCalls c.pipes.memFD := by
    simp only [nonsequentialRound, hsys, husr, if_true]
  rw [hs, hn]
  rcases memoryReadCalls_cases c.pipes.memFD with hm | hm <;>
    rcases userReadCalls_cases c.pipes.userFD with hu | hu <;>
    rw [hm, hu] <;> decide

/-- Witness of C13 (amended): both flags set, every pipe at its end. -/
theorem round_read_order_witness :
    (!true || (true && true)) = true ∧ ((true && true) || !true) = true ∧
    readOrder (sequentialRound true true
      ⟨⟨⟨[], []⟩, ⟨[], []⟩, ⟨[], []⟩, ⟨[], []⟩⟩, CpuStats.zero, CpuStats.zero,
        CpuState.init⟩).1.reads =
      [Channel.memory, Channel.users, Channel.cpuPrev, Channel.cpuCurr] :=
  ⟨rfl, rfl,
    (round_read_order true true
      ⟨⟨⟨[], []⟩, ⟨[], []⟩, ⟨[], []⟩, ⟨[], []⟩⟩, CpuStats.zero, CpuStats.zero, CpuState.init⟩
      rfl rfl).1⟩

/-! ## The producers -/

theorem writesOn_cpuChildLoop (readings : Nat → CpuStats) (left i : Nat) :
    writesOn OutChannel.cpuPFD (cpuChildLoop readings (fun _ => true) left i) =
        (List.range' i left).map (fun k => storeCPUInfo_bytes (readings (2 * k))) ∧
    writesOn OutChannel.cpuCFD (cpuChildLoop readings (fun _ => true) left i) =
        (List.range' i left).map (fun k => storeCPUInfo_bytes (readings (2 * k + 1))) := by
  induction left generalizing i with
  | zero => exact ⟨rfl, rfl⟩
  | succ n ih =>
    have h := ih (i + 1)
    simp [cpuChildLoop, writesOn, List.range'_succ, h.1, h.2]

theorem writesOn_storeMemoryInfoLoop (memBuffers : Nat → List Nat) (left i : Nat) :
    writesOn OutChannel.memFD (storeMemoryInfoLoop memBuffers (fun _ => true) left i) =
      ((List.range' i left).map
        (fun k => [encodeLE 8 (((memBuffers k).length + 1) % 2 ^ 64), payload (memBuffers k)])
        ).flatten := by
  induction left generalizing i with
  | zero => rfl
  | succ n ih =>
    simp only [storeMemoryInfoLoop, if_true, writesOn, List.range'_succ, List.map_cons,
      List.flatten_cons, ih (i + 1)]
    rfl

theorem writesOn_append_exit (ch : OutChannel) (acts : List Action) (status : Nat) :
    writesOn ch (acts ++ [Action.exitProcess status]) = writesOn ch acts := by
  induction acts with
  | nil => rfl
  | cons a rest ih =>
    cases a <;> simp [writesOn, ih]

theorem untilSelfKill_of_not_mem (acts : List Action) (h : Action.killSelf ∉ acts) :
    untilSelfKill acts = acts := by
  induction acts with
  | nil => rfl
  | cons a rest ih =>
    have hr : Action.killSelf ∉ rest := fun m => h (List.mem_cons_of_mem _ m)
    have ha : a ≠ Action.killSelf := fun e => h (e ▸ List.mem_cons_self _ _)
    cases a <;> simp_all [untilSelfKill]

theorem mem_of_mem_untilSelfKill (a : Action) (acts : List Action)
    (h : a ∈ untilSelfKill acts) : a ∈ acts := by
  induction acts with
  | nil => exact h
  | cons b rest ih =>
    cases b <;> simp_all [untilSelfKill] <;> tauto

theorem killSelf_not_mem_cpuChildLoop (readings : Nat → CpuStats) (left i : Nat) :
    Action.killSelf ∉ cpuChildLoop readings (fun _ => true) left i := by
  induction left generalizing i with
  | zero => simp [cpuChildLoop]
  | succ n ih => simp [cpuChildLoop, ih (i + 1)]

theorem killSelf_not_mem_storeMemoryInfoLoop (memBuffers : Nat → List Nat) (left i : Nat) :
    Action.killSelf ∉ storeMemoryInfoLoop memBuffers (fun _ => true) left i := by
  induction left generalizing i with
  | zero => simp [storeMemoryInfoLoop]
  | succ n ih => simp [storeMemoryInfoLoop, ih (i + 1)]

/-- The CPU child never reaches the `kill(getppid(), SIGTERM)` of
`storeCPUInfo`: it stands after `kill(getpid(), SIGTERM)`. -/
theorem killParent_not_mem_cpuChildLoop (readings : Nat → CpuStats) (ok : Nat → Bool)
    (left i : Nat) :
    Action.killParent ∉ untilSelfKill (cpuChildLoop readings ok left i) := by
  induction left generalizing i with
  | zero => simp [cpuChildLoop, untilSelfKill]
  | succ n ih =>
    have h := ih (i + 1)
    unfold cpuChildLoop
    split_ifs <;> simp [untilSelfKill, storeCPUInfo_failure, h]

/-- The program text of `storeMemoryInfo` has no `kill(getppid(), ...)`. -/
theorem killParent_not_mem_storeMemoryInfoLoop (memBuffers : Nat → List Nat)
    (ok : Nat → Bool) (left i : Nat) :
    Action.killParent ∉ storeMemoryInfoLoop memBuffers ok left i := by
  induction left generalizing i with
  | zero => simp [storeMemoryInfoLoop]
  | succ n ih =>
    have h := ih (i + 1)
    unfold storeMemoryInfoLoop
    split_ifs <;> simp [h]

theorem storeMemoryInfo_stream_map (memBuffers : Nat → List Nat) (ks : List Nat) :
    storeMemoryInfo_stream (ks.map memBuffers) =
      ((ks.map (fun k =>
        [encodeLE 8 (((memBuffers k).length + 1) % 2 ^ 64), payload (memBuffers k)])
        ).flatten).flatten := by
  induction ks with
  | nil => rfl
  | cons k rest ih =>
    simp only [List.map_cons, storeMemoryInfo_stream, ih, List.flatten_cons, frame, payload,
      List.flatten_append, List.append_assoc, List.nil_append, List.flatten_nil,
      List.append_nil]

/-- C14 (as stated, refuted): in the Linux build, when `utmpname` fails the
users producer returns before its first write, so it sends neither the count
nor the blob although no write fails. -/
theorem userProducer_without_utmp :
    userProducer false 2 [97] (fun _ => true) = [Action.exitProcess 0] ∧
    writesOn OutChannel.ucountFD (userProducer false 2 [97] (fun _ => true)) = [] ∧
    writesOn OutChannel.userFD (userProducer false 2 [97] (fun _ => true)) = [] := by
  decide

/-- C14 (amended): for every number of samples n, when no write fails, the CPU
producer makes exactly n writes on the CPU-previous pipe and n on the
CPU-current pipe (the samples taken before and after each sleep), the memory
producer makes 2n writes that are the n framed messages of its n strings, and
the users producer, when `utmpname` succeeds, writes exactly one count and one
framed blob, whatever n is. -/
theorem producers_message_counts (n : Nat) (readings : Nat → CpuStats)
    (memBuffers : Nat → List Nat) (userLine_count : Nat) (all_users : List Nat) :
    writesOn OutChannel.cpuPFD (cpuProducer n readings (fun _ => true)) =
      (List.range n).map (fun k => storeCPUInfo_bytes (readings (2 * k))) ∧
    writesOn OutChannel.cpuCFD (cpuProducer n readings (fun _ => true)) =
      (List.range n).map (fun k => storeCPUInfo_bytes (readings (2 * k + 1))) ∧
    (writesOn OutChannel.cpuPFD (cpuProducer n readings (fun _ => true))).length = n ∧
    (writesOn OutChannel.cpuCFD (cpuProducer n readings (fun _ => true))).length = n ∧
    (writesOn OutChannel.memFD (memoryProducer n memBuffers (fun _ => true))).length = 2 * n ∧
    (writesOn OutChannel.memFD (memoryProducer n memBuffers (fun _ => true))).flatten =
      storeMemoryInfo_stream ((List.range n).map memBuffers) ∧
    userProducer true userLine_count all_users (fun _ => true) =
      [Action.wrote OutChannel.ucountFD (encodeLE 4 userLine_count),
        Action.wrote OutChannel.userFD (encodeLE 8 ((all_users.length + 1) % 2 ^ 64)),
        Action.wrote OutChannel.userFD (payload all_users),
        Action.exitProcess 0] := by
  have hc := writesOn_cpuChildLoop readings n 0
  have hm := writesOn_storeMemoryInfoLoop memBuffers n 0
  rw [← List.range_eq_range'] at hc hm
  have hmem : writesOn OutChannel.memFD (memoryProducer n memBuffers (fun _ => true)) =
      ((List.range n).map
        (fun k => [encodeLE 8 (((memBuffers k).length + 1) % 2 ^ 64), payload (memBuffers k)])
        ).flatten := by
    unfold memoryProducer
    rw [untilSelfKill_of_not_mem _ (by
      simp [killSelf_not_mem_storeMemoryInfoLoop memBuffers n 0]),
      writesOn_append_exit, hm]
  have hcpu : cpuProducer n readings (fun _ => true) =
      cpuChildLoop readings (fun _ => true) n 0 := by
    unfold cpuProducer
    exact untilSelfKill_of_not_mem _ (killSelf_not_mem_cpuChildLoop readings n 0)
  rw [hcpu]
  refine ⟨hc.1, hc.2, ?_, ?_, ?_, ?_, rfl⟩
  · rw [hc.1, List.length_map, List.length_range]
  · rw [hc.2, List.length_map, List.length_range]
  · rw [hmem]
    clear hm hmem hc hcpu
    induction n with
    | zero => rfl
    | succ k ih =>
      rw [List.range_succ, List.map_append, List.flatten_append, List.length_append, ih]
      simp
      omega
  · rw [hmem, storeMemoryInfo_stream_map]

/-- C15: no producer ever signals its parent. When the first write of
`storeMemoryInfo` fails, the memory producer sends SIGTERM to itself and dies
there; when the first write of `storeUserInfo` fails the users producer sends
no signal at all and ends with `exit(EXIT_SUCCESS)`; and when the first write
of `storeCPUInfo` fails the CPU producer also dies in its own SIGTERM, because
the `kill(getppid(), SIGTERM)` that only `storeCPUInfo` has stands after
`kill(getpid(), SIGTERM)` in its failure branch. For every number of samples,
every data and every outcome of the writes, none of the three producers
makes the call that signals the parent. All three send nothing after the
failed write. -/
theorem producers_on_failed_write :
    memoryProducer 1 (fun _ => [97]) (fun _ => false) =
      [Action.writeFailed OutChannel.memFD, Action.killSelf] ∧
    userProducer true 2 [97] (fun _ => false) =
      [Action.writeFailed OutChannel.ucountFD, Action.exitProcess 0] ∧
    Action.killSelf ∉ userProducer true 2 [97] (fun _ => false) ∧
    cpuProducer 1 (fun _ => CpuStats.zero) (fun _ => false) =
      [Action.writeFailed OutChannel.cpuPFD, Action.killSelf] ∧
    storeCPUInfo_failure OutChannel.cpuPFD =
      [Action.writeFailed OutChannel.cpuPFD, Action.killSelf, Action.killParent,
        Action.exitProcess 1] ∧
    (∀ (samples : Nat) (memBuffers : Nat → List Nat) (ok : Nat → Bool),
      Action.killParent ∉ memoryProducer samples memBuffers ok) ∧
    (∀ (utmpname_ok : Bool) (userLine_count : Nat) (all_users : List Nat) (ok : Nat → Bool),
      Action.killParent ∉ userProducer utmpname_ok userLine_count all_users ok) ∧
    (∀ (samples : Nat) (readings : Nat → CpuStats) (ok : Nat → Bool),
      Action.killParent ∉ cpuProducer samples readings ok) := by
  refine ⟨by decide, by decide, by decide, by decide, rfl, ?_, ?_, ?_⟩
  · intro samples memBuffers ok hmem
    have h := mem_of_mem_untilSelfKill _ _ hmem
    simp [killParent_not_mem_storeMemoryInfoLoop memBuffers ok samples 0] at h
  · intro utmpname_ok userLine_count all_users ok
    unfold userProducer storeUserInfo
    split_ifs <;> simp
  · intro samples readings ok
    exact killParent_not_mem_cpuChildLoop readings ok samples 0

/-! ## Command-line options -/

theorem applyPositionals_flags (options : ProgramOptions) (i : Nat)
    (remaining : List (List Char)) :
    (applyPositionals options i remaining).sequential = options.sequential ∧
    (applyPositionals options i remaining).system = options.system := by
  induction remaining generalizing options i with
  | nil => exact ⟨rfl, rfl⟩
  | cons arg rest ih =>
    unfold applyPositionals
    split_ifs
    · exact ih _ _
    · exact ih _ _
    · exact ih _ _

/-- C19: a sample count or an interval that is not a valid number is stored
as `atoi` returns it, not replaced by the default: `--samples=abc` gives
samples = 0, `--tdelay=-5` gives tdelay = -5, the remaining arguments `abc xyz`
give samples = 0 and tdelay = 0; the refresh rate read by `main` is the one
value that is reset to its default (1) when it is not positive. -/
theorem parseCommandLineOptions_invalid_numbers :
    (parseCommandLineOptions ["prog".toList, "--samples=abc".toList]).samples = 0 ∧
    (parseCommandLineOptions ["prog".toList, "--tdelay=-5".toList]).tdelay = -5 ∧
    parseCommandLineOptions ["prog".toList, "abc".toList, "xyz".toList] =
      ⟨0, 0, 0, 0, 0, 0⟩ ∧
    DEFAULT_SAMPLES = 10 ∧ DEFAULT_DELAY = 1 ∧
    refreshRate "abc".toList = DEFAULT_REFRESH_RATE ∧
    refreshRate "-5".toList = DEFAULT_REFRESH_RATE := by
  decide

/-- C20: for the command line `prog -s` the parser sets `system`, leaves
`sequential` at 0 and `main` runs the non-sequential mode, and the same holds
with any further arguments that are not options; `sequential` is set by `-a`
and by `--sequential`. -/
theorem parseCommandLineOptions_dash_s (remaining : List (List Char)) :
    parseCommandLineOptions ["prog".toList, "-s".toList] = ⟨10, 1, 0, 1, 0, 0⟩ ∧
    mainMode (parseCommandLineOptions ["prog".toList, "-s".toList]) = Mode.nonsequential ∧
    getopt_long ["-s".toList] = ([⟨'s', none⟩], []) ∧
    (parseOptionEvents [⟨'s', none⟩] remaining).sequential = 0 ∧
    (parseOptionEvents [⟨'s', none⟩] remaining).system = 1 ∧
    mainMode (parseOptionEvents [⟨'s', none⟩] remaining) = Mode.nonsequential ∧
    (parseCommandLineOptions ["prog".toList, "-a".toList]).sequential = 1 ∧
    (parseCommandLineOptions ["prog".toList, "--sequential".toList]).sequential = 1 := by
  have hflags := applyPositionals_flags
    (List.foldl applyOption
      { samples := DEFAULT_SAMPLES, tdelay := DEFAULT_DELAY, user := 0, system := 0,
        sequential := 0, graphics := 0 } [⟨'s', none⟩]) 0 remaining
  have hseq : (parseOptionEvents [⟨'s', none⟩] remaining).sequential = 0 := by
    unfold parseOptionEvents
    rw [hflags.1]
    decide
  have hsys : (parseOptionEvents [⟨'s', none⟩] remaining).system = 1 := by
    unfold parseOptionEvents
    rw [hflags.2]
    decide
  refine ⟨by decide, by decide, by decide, hseq, hsys, ?_, by decide, by decide⟩
  unfold mainMode
  rw [hseq]
  decide

/-! ## The rounds of the consumer: which sections run -/

/-- C24 (as stated, refuted): after a first call with prev = (100, 0, 0, 900)
and curr = (150, 0, 0, 950) the stored baseline is the previous-sample
argument, not the current sample; and after a later call with curr = prev (zero
total difference) made with a stored baseline of zeros, the stored baseline is
still all zeros. -/
theorem calculateCPUUsage_baseline_not_current :
    (calculateCPUUsage CpuState.init ⟨100, 0, 0, 900, 0, 0, 0⟩
      ⟨150, 0, 0, 950, 0, 0, 0⟩).2.prev_cpu_usage = ⟨100, 0, 0, 900, 0, 0, 0⟩ ∧
    (calculateCPUUsage CpuState.init ⟨100, 0, 0, 900, 0, 0, 0⟩
      ⟨150, 0, 0, 950, 0, 0, 0⟩).2.prev_cpu_usage ≠ ⟨150, 0, 0, 950, 0, 0, 0⟩ ∧
    (calculateCPUUsage ⟨CpuStats.zero, false⟩ ⟨150, 0, 0, 950, 0, 0, 0⟩
      ⟨150, 0, 0, 950, 0, 0, 0⟩).2.prev_cpu_usage = CpuStats.zero ∧
    (calculateCPUUsage ⟨CpuStats.zero, false⟩ ⟨150, 0, 0, 950, 0, 0, 0⟩
      ⟨150, 0, 0, 950, 0, 0, 0⟩).2.prev_cpu_usage ≠ ⟨150, 0, 0, 950, 0, 0, 0⟩ := by
  have h1 : (calculateCPUUsage CpuState.init ⟨100, 0, 0, 900, 0, 0, 0⟩
      ⟨150, 0, 0, 950, 0, 0, 0⟩).2.prev_cpu_usage = ⟨100, 0, 0, 900, 0, 0, 0⟩ := by
    simp [calculateCPUUsage, CpuState.init]
  have h2 : (calculateCPUUsage ⟨CpuStats.zero, false⟩ ⟨150, 0, 0, 950, 0, 0, 0⟩
      ⟨150, 0, 0, 950, 0, 0, 0⟩).2.prev_cpu_usage = CpuStats.zero := by
    rw [calculateCPUUsage_zero_delta _ _ _ rfl (totalDiffOf_self _)]
  refine ⟨h1, ?_, h2, ?_⟩
  · rw [h1]
    decide
  · rw [h2]
    decide

/-- C24 (amended): after a first call of `calculateCPUUsage` the stored
baseline is the previous-sample argument of that call and `first_run` is
cleared; after a later call whose total difference is not 0 the stored baseline
is the current sample of that call. -/
theorem calculateCPUUsage_stored_baseline (baseline prev curr : CpuStats) :
    (calculateCPUUsage ⟨baseline, true⟩ prev curr).2 = ⟨prev, false⟩ ∧
    (totalDiffOf prev curr ≠ 0 →
      (calculateCPUUsage ⟨baseline, false⟩ prev curr).2 = ⟨curr, false⟩) := by
  refine ⟨by simp [calculateCPUUsage], ?_⟩
  intro h
  rw [calculateCPUUsage_later ⟨baseline, false⟩ prev curr rfl h]

/-- C28: after the first call the value returned by `calculateCPUUsage` is the
same for any two stored baselines: it depends on the two arguments only. -/
theorem calculateCPUUsage_ignores_baseline (baseline baseline' prev curr : CpuStats) :
    (calculateCPUUsage ⟨baseline, false⟩ prev curr).1 =
      (calculateCPUUsage ⟨baseline', false⟩ prev curr).1 := by
  by_cases h : totalDiffOf prev curr = 0
  · rw [calculateCPUUsage_zero_delta _ _ _ rfl h, calculateCPUUsage_zero_delta _ _ _ rfl h]
  · rw [calculateCPUUsage_later _ _ _ rfl h, calculateCPUUsage_later _ _ _ rfl h]

/-! ## `update_system_data`: the floor guard and the tiers -/

theorem candidateUsage_gt_of_last (st : GuiCpuState) (reading : CpuStats)
    (h : 5 < st.last_cpu_usage) : (5 / 2 : ℚ) < candidateUsage st reading := by
  unfold candidateUsage
  simp only
  split_ifs
  · exact smooth_ge_of_last _ _ h (rawUsage_bounds _ _).1
  · linarith
  · linarith

/-- C26: in `update_system_data` the condition of the floor guard,
`cpu_usage < 2.0 && last_cpu_usage > 5.0`, is false in every state and for
every reading, so the emitted value is always the candidate: with a previous
value above 5 and a raw percentage between 0 and 100 each of the three blends
is at least 2, and so is the previous value itself. -/
theorem floorGuard_never_taken (st : GuiCpuState) (reading : CpuStats) (last raw : ℚ) :
    ¬ (candidateUsage st reading < 2 ∧ st.last_cpu_usage > 5) ∧
    (update_system_data st reading).1 = candidateUsage st reading ∧
    (5 < last → 0 ≤ raw → raw ≤ 100 →
      2 ≤ 0.85 * last + 0.15 * raw ∧ 2 ≤ 0.65 * last + 0.35 * raw ∧
      2 ≤ 0.5 * last + 0.5 * raw ∧ 2 ≤ last ∧ 2 ≤ smooth last raw) := by
  have hno : ¬ (candidateUsage st reading < 2 ∧ st.last_cpu_usage > 5) := by
    rintro ⟨h2, h5⟩
    have := candidateUsage_gt_of_last st reading h5
    linarith
  refine ⟨hno, ?_, ?_⟩
  · show floorGuard (candidateUsage st reading) st.last_cpu_usage = _
    unfold floorGuard
    rw [if_neg hno]
  · intro hl h0 _
    have hs := smooth_ge_of_last last raw hl h0
    refine ⟨?_, ?_, ?_, by linarith, by linarith⟩ <;> norm_num <;> linarith

/-- C30: the tiered smoothing is not monotone in the raw reading: with a
previous value 10, the raw percentage 35 gives 18.75 and the larger raw
percentage 36 gives 13.9; the same two values are emitted by
`update_system_data` for the readings (35, 0, 0, 65) and (36, 0, 0, 64) after
a sample of zeros. -/
theorem smooth_not_monotone :
    smooth 10 35 = 18.75 ∧ smooth 10 36 = 13.9 ∧
    (35 : ℚ) < 36 ∧ smooth 10 36 < smooth 10 35 ∧
    (update_system_data ⟨CpuStats.zero, CpuStats.zero, 10, 1⟩ ⟨35, 0, 0, 65, 0, 0, 0⟩).1
      = 18.75 ∧
    (update_system_data ⟨CpuStats.zero, CpuStats.zero, 10, 1⟩ ⟨36, 0, 0, 64, 0, 0, 0⟩).1
      = 13.9 := by
  have h35 : smooth 10 35 = 18.75 := by
    unfold smooth
    norm_num [abs_of_pos]
  have h36 : smooth 10 36 = 13.9 := by
    unfold smooth
    norm_num [abs_of_pos]
  have hr35 : rawUsage 100 65 = 35 := by
    have : usub 100 65 = 35 := by decide
    rw [rawUsage_eq_clampPct, this, clampPct_of_mem] <;> norm_num
  have hr36 : rawUsage 100 64 = 36 := by
    have : usub 100 64 = 36 := by decide
    rw [rawUsage_eq_clampPct, this, clampPct_of_mem] <;> norm_num
  have hc35 : candidateUsage ⟨CpuStats.zero, CpuStats.zero, 10, 1⟩ ⟨35, 0, 0, 65, 0, 0, 0⟩
      = smooth 10 35 := by
    rw [candidateUsage_of_delta _ _ (by decide) (by decide)]
    have : totalDiffOf ⟨0, 0, 0, 0, 0, 0, 0⟩ ⟨35, 0, 0, 65, 0, 0, 0⟩ = 100 := by decide
    have hd : fieldDiff 65 0 = 65 := by decide
    simp only [this, CpuStats.zero, hd, hr35]
  have hc36 : candidateUsage ⟨CpuStats.zero, CpuStats.zero, 10, 1⟩ ⟨36, 0, 0, 64, 0, 0, 0⟩
      = smooth 10 36 := by
    rw [candidateUsage_of_delta _ _ (by decide) (by decide)]
    have : totalDiffOf ⟨0, 0, 0, 0, 0, 0, 0⟩ ⟨36, 0, 0, 64, 0, 0, 0⟩ = 100 := by decide
    have hd : fieldDiff 64 0 = 64 := by decide
    simp only [this, CpuStats.zero, hd, hr36]
  have hu : ∀ r, (update_system_data ⟨CpuStats.zero, CpuStats.zero, 10, 1⟩ r).1 =
      floorGuard (candidateUsage ⟨CpuStats.zero, CpuStats.zero, 10, 1⟩ r) 10 := fun _ => rfl
  refine ⟨h35, h36, by norm_num, ?_, ?_, ?_⟩
  · rw [h35, h36]
    norm_num
  · rw [hu, hc35, h35]
    unfold floorGuard
    norm_num
  · rw [hu, hc36, h36]
    unfold floorGuard
    norm_num

/-! ## `get_system_uptime` -/

theorem toInt32_of_fits (x : Int) (h0 : -(2 ^ 31) ≤ x) (h1 : x < 2 ^ 31) : toInt32 x = x := by
  unfold toInt32
  omega

theorem get_system_uptime_mac_eq (u : Int) (h0 : 0 ≤ u) (h1 : u < 2 ^ 31 * 86400) :
    get_system_uptime_mac (some u) = (u / 86400, u % 86400 / 3600, u % 3600 / 60, u % 60) := by
  have hm : 0 ≤ u % 86400 := Int.emod_nonneg _ (by norm_num)
  have hm' : 0 ≤ u % 86400 % 3600 := Int.emod_nonneg _ (by norm_num)
  simp only [get_system_uptime_mac, Int.reduceMul]
  rw [Int.tdiv_eq_ediv h0 (by decide : (0 : Int) ≤ 86400),
    Int.tmod_eq_emod h0 (by decide : (0 : Int) ≤ 86400),
    Int.tdiv_eq_ediv hm (by decide : (0 : Int) ≤ 3600),
    Int.tmod_eq_emod hm (by decide : (0 : Int) ≤ 3600),
    Int.tdiv_eq_ediv hm' (by decide : (0 : Int) ≤ 60),
    Int.tmod_eq_emod hm' (by decide : (0 : Int) ≤ 60)]
  rw [toInt32_of_fits _ (by omega) (by omega), toInt32_of_fits _ (by omega) (by omega),
    toInt32_of_fits _ (by omega) (by omega), toInt32_of_fits _ (by omega) (by omega)]
  have e1 : u % 86400 % 3600 = u % 3600 := by omega
  have e2 : u % 86400 % 3600 % 60 = u % 60 := by omega
  rw [e2, e1]

/-- C22 (as stated, refuted): for the uptime 2^31 * 86400 seconds the number of
days, 2^31, does not fit the `int` it is stored in: `get_system_uptime` of
platform_mac.c yields days = -2^31 and the four fields do not add up to the
uptime. -/
theorem get_system_uptime_mac_days_wrap :
    get_system_uptime_mac (some (2 ^ 31 * 86400)) = (-(2 ^ 31), 0, 0, 0) ∧
    (-(2 ^ 31) : Int) * 86400 + 0 * 3600 + 0 * 60 + 0 ≠ 2 ^ 31 * 86400 := by
  decide

/-- C22 (amended): for every uptime u of whole seconds with
0 <= u < 2^31 * 86400 (so that the number of days fits an `int`),
`get_system_uptime` of platform_mac.c returns (days, hours, minutes, seconds)
with days >= 0, 0 <= hours < 24, 0 <= minutes < 60, 0 <= seconds < 60 and
days * 86400 + hours * 3600 + minutes * 60 + seconds = u. -/
theorem get_system_uptime_mac_decomposition (u : Int) (h0 : 0 ≤ u)
    (h1 : u < 2 ^ 31 * 86400) :
    0 ≤ (get_system_uptime_mac (some u)).1 ∧
    0 ≤ (get_system_uptime_mac (some u)).2.1 ∧ (get_system_uptime_mac (some u)).2.1 < 24 ∧
    0 ≤ (get_system_uptime_mac (some u)).2.2.1 ∧ (get_system_uptime_mac (some u)).2.2.1 < 60 ∧
    0 ≤ (get_system_uptime_mac (some u)).2.2.2 ∧ (get_system_uptime_mac (some u)).2.2.2 < 60 ∧
    (get_system_uptime_mac (some u)).1 * 86400 + (get_system_uptime_mac (some u)).2.1 * 3600 +
      (get_system_uptime_mac (some u)).2.2.1 * 60 + (get_system_uptime_mac (some u)).2.2.2 = u := by
  rw [get_system_uptime_mac_eq u h0 h1]
  simp only
  omega

/-- Witness of C22 (amended): 93784 seconds are 1 day, 2 hours, 3 minutes and
4 seconds. -/
theorem get_system_uptime_mac_decomposition_witness :
    (0 : Int) ≤ 93784 ∧ (93784 : Int) < 2 ^ 31 * 86400 ∧
    get_system_uptime_mac (some 93784) = (1, 2, 3, 4) ∧
    (get_system_uptime_mac (some 93784)).1 * 86400 +
      (get_system_uptime_mac (some 93784)).2.1 * 3600 +
      (get_system_uptime_mac (some 93784)).2.2.1 * 60 +
      (get_system_uptime_mac (some 93784)).2.2.2 = 93784 :=
  ⟨by decide, by decide, by decide,
    (get_system_uptime_mac_decomposition 93784 (by decide) (by decide)).2.2.2.2.2.2.2⟩

theorem doubleToInt_natCast_div (n d : Nat) (h : n / d < 2 ^ 31) :
    doubleToInt ((n : ℚ) / (d : ℚ)) = some (((n / d : Nat) : Int)) := by
  have hq : (0 : ℚ) ≤ (n : ℚ) / (d : ℚ) := by positivity
  unfold doubleToInt
  rw [if_pos hq, Rat.floor_natCast_div_natCast]
  unfold checkedInt
  rw [if_pos]
  · norm_cast
  · constructor
    · have : (0 : Int) ≤ (n : Int) / (d : Int) := Int.ediv_nonneg (by positivity) (by positivity)
      omega
    · have : ((n : Int) / (d : Int)) = ((n / d : Nat) : Int) := by norm_cast
      rw [this]
      omega

theorem doubleToInt_natCast (n : Nat) (h : n < 2 ^ 31) :
    doubleToInt (n : ℚ) = some (n : Int) := by
  have := doubleToInt_natCast_div n 1 (by simpa using h)
  simpa using this

theorem checkedInt_of_fits (x : Int) (h0 : -(2 ^ 31) ≤ x) (h1 : x ≤ 2 ^ 31 - 1) :
    checkedInt x = some x := by
  unfold checkedInt
  rw [if_pos ⟨h0, h1⟩]

theorem get_system_uptime_linux_eq (u : Nat) (h : u < 24856 * 86400) :
    get_system_uptime_linux (u : ℚ) =
      some (((u / 86400 : Nat) : Int), ((u % 86400 / 3600 : Nat) : Int),
        ((u % 3600 / 60 : Nat) : Int), ((u % 60 : Nat) : Int)) := by
  have hd : u / 86400 < 24856 := by omega
  have e1 : (u : ℚ) / (24 * 3600) = (u : ℚ) / ((86400 : Nat) : ℚ) := by norm_num
  have s1 : (u : ℚ) - ((((u / 86400 : Nat) : Int) * 24 * 3600 : Int) : ℚ)
      = ((u % 86400 : Nat) : ℚ) := by
    have := Nat.div_add_mod u 86400
    have hq : (86400 : ℚ) * ((u / 86400 : Nat) : ℚ) + ((u % 86400 : Nat) : ℚ) = (u : ℚ) := by
      exact_mod_cast this
    simp only [Int.cast_mul, Int.cast_natCast, Int.cast_ofNat]
    linarith
  have e2 : ((u % 86400 : Nat) : ℚ) / 3600 = ((u % 86400 : Nat) : ℚ) / ((3600 : Nat) : ℚ) := by
    norm_num
  have s2 : ((u % 86400 : Nat) : ℚ) - ((((u % 86400 / 3600 : Nat) : Int) * 3600 : Int) : ℚ)
      = ((u % 3600 : Nat) : ℚ) := by
    have := Nat.div_add_mod (u % 86400) 3600
    have h36 : u % 86400 % 3600 = u % 3600 := by omega
    rw [h36] at this
    have hq : (3600 : ℚ) * ((u % 86400 / 3600 : Nat) : ℚ) + ((u % 3600 : Nat) : ℚ)
        = ((u % 86400 : Nat) : ℚ) := by
      exact_mod_cast this
    simp only [Int.cast_mul, Int.cast_natCast, Int.cast_ofNat]
    linarith
  have e3 : ((u % 3600 : Nat) : ℚ) / 60 = ((u % 3600 : Nat) : ℚ) / ((60 : Nat) : ℚ) := by
    norm_num
  have hsec : (((u % 3600 : Nat) : Int)).tmod 60 = ((u % 60 : Nat) : Int) := by
    rw [Int.tmod_eq_emod (by positivity) (by decide : (0 : Int) ≤ 60)]
    omega
  unfold get_system_uptime_linux
  rw [e1, doubleToInt_natCast_div u 86400 (by omega)]
  simp only [Option.some_bind]
  rw [checkedInt_of_fits _ (by omega) (by omega)]
  simp only [Option.some_bind]
  rw [checkedInt_of_fits _ (by omega) (by omega)]
  simp only [Option.some_bind]
  rw [s1, e2, doubleToInt_natCast_div (u % 86400) 3600 (by omega)]
  simp only [Option.some_bind]
  rw [checkedInt_of_fits _ (by omega) (by omega)]
  simp only [Option.some_bind]
  rw [s2, e3, doubleToInt_natCast_div (u % 3600) 60 (by omega)]
  simp only [Option.some_bind]
  rw [doubleToInt_natCast (u % 3600) (by omega)]
  simp only [Option.some_bind, hsec]

/-- C25 (as stated, refuted): for the uptime 24856 * 86400 seconds (24856 days)
the Linux `get_system_uptime` computes the `int` product `*days * 24 * 3600`,
2147558400, which does not fit an `int`, so its fields are undefined, while the
version of platform_mac.c returns (24856, 0, 0, 0). -/
theorem get_system_uptime_linux_overflow :
    get_system_uptime_linux (((24856 * 86400 : Nat)) : ℚ) = none ∧
    get_system_uptime_mac (some (24856 * 86400)) = (24856, 0, 0, 0) ∧
    checkedInt (24856 * 24 * 3600) = none := by
  refine ⟨?_, by decide, by decide⟩
  have e1 : (((24856 * 86400 : Nat)) : ℚ) / (24 * 3600)
      = (((24856 * 86400 : Nat)) : ℚ) / ((86400 : Nat) : ℚ) := by norm_num
  have hdiv : (24856 * 86400 : Nat) / 86400 = 24856 := by norm_num
  unfold get_system_uptime_linux
  rw [e1, doubleToInt_natCast_div _ 86400 (by norm_num), hdiv]
  simp only [Option.some_bind]
  have h24 : checkedInt (((24856 : Nat) : Int) * 24) = some 596544 := by decide
  rw [h24]
  simp only [Option.some_bind]
  have h3600 : checkedInt ((596544 : Int) * 3600) = none := by decide
  rw [h3600]
  rfl

/-- C25 (amended): for every uptime of u whole seconds with u < 24856 * 86400
(less than 24856 days, so that `*days * 24 * 3600` fits an `int`), the Linux
`get_system_uptime` (successive subtraction and truncation on a real value) and
the one of platform_mac.c (integer division and remainder) return the same
(days, hours, minutes, seconds). -/
theorem get_system_uptime_linux_eq_mac (u : Nat) (h : u < 24856 * 86400) :
    get_system_uptime_linux (u : ℚ) = some (get_system_uptime_mac (some (u : Int))) := by
  rw [get_system_uptime_linux_eq u h,
    get_system_uptime_mac_eq (u : Int) (by positivity) (by omega)]
  norm_cast

/-- Witness of C25 (amended): 93784 seconds. -/
theorem get_system_uptime_linux_eq_mac_witness :
    93784 < 24856 * 86400 ∧
    get_system_uptime_linux ((93784 : Nat) : ℚ) = some (1, 2, 3, 4) := by
  refine ⟨by decide, ?_⟩
  rw [get_system_uptime_linux_eq_mac 93784 (by decide)]
  decide

/-! ## The session blob of `storeUserInfo` -/

theorem collectUsers_blob (entries : List UtmpEntry) (sofar : List Nat) (count : Nat) :
    (collectUsers entries (sofar.take 4095, count)).1 =
      (sofar ++ bufferedLines entries).take 4095 := by
  induction entries generalizing sofar count with
  | nil => simp [collectUsers, bufferedLines]
  | cons e rest ih =>
    by_cases h : e.ut_type = USER_PROCESS
    · have hstep : sofar.take 4095 ++
          (userLineBuffer e).take (MAX_USER_BUFFER - (sofar.take 4095).length - 1) =
          (sofar ++ userLineBuffer e).take 4095 := by
        rw [List.take_append_eq_append_take, List.length_take]
        congr 2
        unfold MAX_USER_BUFFER
        omega
      simp only [collectUsers, bufferedLines, h, if_true]
      rw [hstep, ih, List.append_assoc]
    · simp only [collectUsers, bufferedLines, h, if_false]
      exact ih sofar count

theorem userBlob_eq (entries : List UtmpEntry) :
    userBlob entries = (bufferedLines entries).take 4095 := by
  have := collectUsers_blob entries [] 0
  simpa [userBlob] using this

theorem bufferedLines_eq_formattedLines (entries : List UtmpEntry)
    (h : ∀ e ∈ entries, e.ut_type = USER_PROCESS → (formatUserLine e).length ≤ 255) :
    bufferedLines entries = formattedLines entries := by
  induction entries with
  | nil => rfl
  | cons e rest ih =>
    have hrest := ih (fun x hx => h x (List.mem_cons_of_mem _ hx))
    by_cases ht : e.ut_type = USER_PROCESS
    · have hl := h e (List.mem_cons_self _ _) ht
      simp only [bufferedLines, formattedLines, ht, if_true, hrest, userLineBuffer,
        List.take_of_length_le hl]
    · simp only [bufferedLines, formattedLines, ht, if_false, hrest]

set_option maxRecDepth 100000 in
/-- C23 (as stated, refuted): for a table of two sessions whose first host name
has 250 characters, the first formatted line has 258 bytes and is cut to 255 in
the line buffer, so the blob continues at index 255 with the second line (byte
118) where the concatenation of the whole lines has byte 104: the blob is not
an initial part of that concatenation. -/
theorem userBlob_long_line :
    (formatUserLine ⟨7, [117], [108], List.replicate 250 104⟩).length = 258 ∧
    (userBlob [⟨7, [117], [108], List.replicate 250 104⟩, ⟨7, [118], [109], [110]⟩]).length
      = 264 ∧
    (userBlob [⟨7, [117], [108], List.replicate 250 104⟩, ⟨7, [118], [109], [110]⟩]).getD 255 0
      = 118 ∧
    (formattedLines
      [⟨7, [117], [108], List.replicate 250 104⟩, ⟨7, [118], [109], [110]⟩]).getD 255 0 = 104 ∧
    userBlob [⟨7, [117], [108], List.replicate 250 104⟩, ⟨7, [118], [109], [110]⟩] ≠
      (formattedLines
        [⟨7, [117], [108], List.replicate 250 104⟩, ⟨7, [118], [109], [110]⟩]).take
        (userBlob
          [⟨7, [117], [108], List.replicate 250 104⟩, ⟨7, [118], [109], [110]⟩]).length := by
  decide

/-- C23 (amended): for every session table, the blob built by `storeUserInfo`
is the first 4095 bytes of the concatenation, in the order of the table, of one
line per entry of type `USER_PROCESS` and of no other entry, each line being
the formatted text cut to the 255 bytes the line buffer holds; so it is an
initial part of that concatenation, equals it whenever it fits, never exceeds
4095 bytes (4096 are sent with the terminating NUL), and when no formatted line
exceeds 255 bytes the lines are the whole formatted lines. -/
theorem userBlob_characterisation (entries : List UtmpEntry) :
    userBlob entries = (bufferedLines entries).take (MAX_USER_BUFFER - 1) ∧
    (userBlob entries).length ≤ MAX_USER_BUFFER - 1 ∧
    (payload (userBlob entries)).length ≤ MAX_USER_BUFFER ∧
    userBlob entries = (bufferedLines entries).take (userBlob entries).length ∧
    ((bufferedLines entries).length ≤ MAX_USER_BUFFER - 1 →
      userBlob entries = bufferedLines entries) ∧
    ((∀ e ∈ entries, e.ut_type = USER_PROCESS → (formatUserLine e).length ≤ 255) →
      bufferedLines entries = formattedLines entries) ∧
    storeUserInfoOfTable true entries (fun _ => true) =
      [Action.wrote OutChannel.ucountFD (encodeLE 4 (collectUsers entries ([], 0)).2),
        Action.wrote OutChannel.userFD (encodeLE 8 (((userBlob entries).length + 1) % 2 ^ 64)),
        Action.wrote OutChannel.userFD (payload (userBlob entries))] := by
  have hM : MAX_USER_BUFFER - 1 = 4095 := rfl
  have hb := userBlob_eq entries
  have hlen : (userBlob entries).length ≤ 4095 := by
    rw [hb, List.length_take]
    exact min_le_left _ _
  refine ⟨by rw [hM]; exact hb, by rw [hM]; exact hlen, ?_, ?_, ?_,
    bufferedLines_eq_formattedLines entries, rfl⟩
  · simp only [payload, List.length_append, List.length_singleton]
    unfold MAX_USER_BUFFER
    omega
  · conv_lhs => rw [hb]
    rw [hb, List.length_take, List.take_eq_take]
    simp
  · intro h
    rw [hb, List.take_of_length_le (by rw [hM] at h; exact h)]

/-! ## `printUserInfo` on the blob of `storeUserInfo` -/

theorem read_frame_header (bound : Nat) (str rest : List Nat) (sched : List Delivery)
    (hb : 8 ≤ bound) (h : deliversWhole bound sched) :
    Pipe.read ⟨frame str ++ rest, sched⟩ 8 =
      ((8 : Int), encodeLE 8 ((str.length + 1) % 2 ^ 64), ⟨(str ++ [0]) ++ rest, sched.tail⟩) := by
  have hdata : frame str ++ rest
      = encodeLE 8 ((str.length + 1) % 2 ^ 64) ++ ((str ++ [0]) ++ rest) := by
    simp [frame]
  rw [Pipe.read_whole bound 8 _ _ h hb, hdata,
    List.take_left' (encodeLE_length _ _), List.drop_left' (encodeLE_length _ _),
    encodeLE_length]
  rfl

theorem read_frame_payload (bound : Nat) (str rest : List Nat) (sched : List Delivery)
    (hb : str.length + 1 ≤ bound) (h : deliversWhole bound sched) :
    Pipe.read ⟨(str ++ [0]) ++ rest, sched⟩ (str.length + 1) =
      (((str.length + 1 : Nat) : Int), str ++ [0], ⟨rest, sched.tail⟩) := by
  have hpl : (str ++ [0]).length = str.length + 1 := by simp
  rw [Pipe.read_whole bound _ _ _ h hb, List.take_left' hpl, List.drop_left' hpl, hpl]

/-- On a pipe that starts with a framed string of at most 4095 bytes and is
delivered whole, `printUserInfo` shows the payload, stores the terminating NUL
at the index that the length announces, and leaves the pipe behind the
message. -/
theorem printUserInfo_frame (str rest : List Nat) (sched : List Delivery)
    (hlen : str.length + 1 ≤ MAX_USER_BUFFER)
    (h : deliversWhole MAX_USER_BUFFER sched) :
    printUserInfo ⟨frame str ++ rest, sched⟩ =
      (UserOutput.sessions (payload str), ⟨rest, sched.tail.tail⟩) ∧
    printUserInfo_terminatorIndex ⟨frame str ++ rest, sched⟩ = some (str.length + 1) ∧
    announcedLength ⟨frame str ++ rest, sched⟩ = str.length + 1 := by
  have hM : MAX_USER_BUFFER = 4096 := rfl
  have hdec : decodeLE (encodeLE 8 ((str.length + 1) % 2 ^ 64)) = str.length + 1 :=
    decodeLE_header _ (by omega)
  have h1 := read_frame_header MAX_USER_BUFFER str rest sched (by omega) h
  have h2 := read_frame_payload MAX_USER_BUFFER str rest sched.tail hlen
    (deliversWhole_tail _ _ h)
  have hcond : ¬ ((8 : Int) ≤ 0 ∨ str.length + 1 > MAX_USER_BUFFER) := by
    rintro (hc | hc)
    · omega
    · omega
  have hpos : ((str.length + 1 : Nat) : Int) > 0 := by positivity
  refine ⟨?_, ?_, ?_⟩
  · unfold printUserInfo
    simp only [h1, hdec, h2, payload]
    rw [if_neg hcond, if_pos hpos]
  · unfold printUserInfo_terminatorIndex payloadRead announcedLength
    simp only [h1, hdec, h2]
    rw [if_neg hcond, if_pos hpos]
    simp
  · unfold announcedLength
    simp only [h1, hdec]

/-- At the end of the stream `printUserInfo` reads 0 bytes for the length and
reports that there is no session. -/
theorem printUserInfo_at_end (sched : List Delivery) (h : deliversWhole MAX_USER_BUFFER sched) :
    printUserInfo ⟨[], sched⟩ = (UserOutput.noSessions, ⟨[], sched.tail⟩) ∧
    (Pipe.read ⟨[], sched⟩ 8).1 = 0 := by
  have h1 : Pipe.read ⟨[], sched⟩ 8 = ((0 : Int), [], ⟨[], sched.tail⟩) := by
    rw [Pipe.read_whole MAX_USER_BUFFER 8 [] sched h (by decide)]
    rfl
  refine ⟨?_, by rw [h1]⟩
  unfold printUserInfo
  simp only [h1]
  rw [if_pos (Or.inl le_rfl)]

theorem bufferedLines_replicate (e : UtmpEntry) (n : Nat) (h : e.ut_type = USER_PROCESS) :
    (bufferedLines (List.replicate n e)).length = n * (userLineBuffer e).length := by
  induction n with
  | zero => simp [bufferedLines]
  | succ k ih =>
    simp only [List.replicate_succ, bufferedLines, h, if_true, List.length_append, ih]
    ring

/-- C27: for a session table of 17 sessions whose host names have 250
characters the blob of `storeUserInfo` has 4095 bytes and is sent with the
length 4096; `printUserInfo` accepts that length (it is not above the size of
its buffer), the payload read returns 4096 bytes, and the terminating NUL is
stored at index 4096, which is not an index of the 4096-byte buffer. -/
theorem printUserInfo_terminator_out_of_bounds :
    (userBlob (List.replicate 17 ⟨7, [117], [108], List.replicate 250 104⟩)).length = 4095 ∧
    announcedLength
      ⟨frame (userBlob (List.replicate 17 ⟨7, [117], [108], List.replicate 250 104⟩)), []⟩
      = 4096 ∧
    printUserInfo_terminatorIndex
      ⟨frame (userBlob (List.replicate 17 ⟨7, [117], [108], List.replicate 250 104⟩)), []⟩
      = some 4096 ∧
    ¬ (4096 < MAX_USER_BUFFER) := by
  have hfmt : (formatUserLine ⟨7, [117], [108], List.replicate 250 104⟩).length = 258 := by
    simp only [formatUserLine, List.length_append, List.length_replicate, List.length_cons,
      List.length_nil]
  have hline : (userLineBuffer ⟨7, [117], [108], List.replicate 250 104⟩).length = 255 := by
    rw [userLineBuffer, List.length_take, hfmt]
    rfl
  have hblob :
      (userBlob (List.replicate 17 ⟨7, [117], [108], List.replicate 250 104⟩)).length = 4095 := by
    rw [userBlob_eq, List.length_take, bufferedLines_replicate _ _ rfl, hline]
    rfl
  have hw : deliversWhole MAX_USER_BUFFER [] := by
    intro d hd
    cases hd
  have hf := printUserInfo_frame
    (userBlob (List.replicate 17 ⟨7, [117], [108], List.replicate 250 104⟩)) [] []
    (by rw [hblob]; decide) hw
  rw [List.append_nil, hblob] at hf
  exact ⟨hblob, hf.2.2, hf.2.1, by decide⟩

/-! ## The user section over the rounds -/

theorem sequentialRound_users (user system : Bool) (c : Consumer)
    (hshown : (user || !system) = true) :
    (sequentialRound user system c).1.users = some (printUserInfo c.pipes.userFD).1 ∧
    (sequentialRound user system c).2.pipes.userFD = (printUserInfo c.pipes.userFD).2 := by
  cases user <;> cases system <;> simp_all [sequentialRound]

theorem nonsequentialRound_users (user system : Bool) (c : Consumer)
    (hshown : (user || !system) = true) :
    (nonsequentialRound user system c).1.users = some (printUserInfo c.pipes.userFD).1 ∧
    (nonsequentialRound user system c).2.pipes.userFD = (printUserInfo c.pipes.userFD).2 := by
  cases user <;> cases system <;> simp_all [nonsequentialRound]

/-- Once the user pipe is at its end, every further round of a loop that runs
`printUserInfo` reports no session and finds the pipe at its end again. -/
theorem runRounds_users_at_end (round : Consumer → RoundOutput × Consumer)
    (hround : ∀ c, (round c).1.users = some (printUserInfo c.pipes.userFD).1 ∧
      (round c).2.pipes.userFD = (printUserInfo c.pipes.userFD).2)
    (n : Nat) (c : Consumer) (hdata : c.pipes.userFD.data = [])
    (hw : deliversWhole MAX_USER_BUFFER c.pipes.userFD.sched) :
    (runRounds round n c).map (fun r => r.users) =
        List.replicate n (some UserOutput.noSessions) ∧
    (afterRounds round n c).pipes.userFD.data = [] ∧
    deliversWhole MAX_USER_BUFFER (afterRounds round n c).pipes.userFD.sched := by
  induction n generalizing c with
  | zero => exact ⟨rfl, hdata, hw⟩
  | succ k ih =>
    have hp : c.pipes.userFD = ⟨[], c.pipes.userFD.sched⟩ := by
      rw [← hdata]
    have hend := (printUserInfo_at_end c.pipes.userFD.sched hw).1
    rw [← hp] at hend
    have hr := hround c
    rw [hend] at hr
    have hnext := ih (round c).2 (by rw [hr.2]) (by rw [hr.2]; exact deliversWhole_tail _ _ hw)
    simp only [runRounds, afterRounds, List.map_cons, List.replicate_succ, hr.1, hnext.1]
    exact ⟨trivial, hnext.2.1, hnext.2.2⟩

theorem runRounds_users_single_blob (round : Consumer → RoundOutput × Consumer)
    (hround : ∀ c, (round c).1.users = some (printUserInfo c.pipes.userFD).1 ∧
      (round c).2.pipes.userFD = (printUserInfo c.pipes.userFD).2)
    (n : Nat) (c : Consumer) (blob : List Nat)
    (hlen : blob.length + 1 ≤ MAX_USER_BUFFER)
    (hdata : c.pipes.userFD.data = frame blob)
    (hw : deliversWhole MAX_USER_BUFFER c.pipes.userFD.sched) :
    (runRounds round (n + 1) c).map (fun r => r.users) =
      some (UserOutput.sessions (payload blob)) ::
        List.replicate n (some UserOutput.noSessions) ∧
    (∀ k, (Pipe.read (afterRounds round (k + 1) c).pipes.userFD 8).1 = 0) := by
  have hp : c.pipes.userFD = ⟨frame blob ++ [], c.pipes.userFD.sched⟩ := by
    rw [List.append_nil, ← hdata]
  have hfirst := (printUserInfo_frame blob [] c.pipes.userFD.sched hlen hw).1
  rw [← hp] at hfirst
  have hr := hround c
  rw [hfirst] at hr
  have hd1 : (round c).2.pipes.userFD.data = [] := by rw [hr.2]
  have hw1 : deliversWhole MAX_USER_BUFFER (round c).2.pipes.userFD.sched := by
    rw [hr.2]
    exact deliversWhole_tail _ _ (deliversWhole_tail _ _ hw)
  refine ⟨?_, ?_⟩
  · have hrest := (runRounds_users_at_end round hround n (round c).2 hd1 hw1).1
    simp only [runRounds, List.map_cons, hr.1, hrest]
  · intro k
    have hk := runRounds_users_at_end round hround k (round c).2 hd1 hw1
    have hpk : (afterRounds round (k + 1) c).pipes.userFD =
        ⟨[], (afterRounds round k (round c).2).pipes.userFD.sched⟩ := by
      show (afterRounds round k (round c).2).pipes.userFD = _
      rw [← hk.2.1]
    rw [hpk]
    exact (printUserInfo_at_end _ hk.2.2).2

/-- C29: in a run of n + 1 rounds in which the user section is displayed, with
the user pipe carrying the single framed blob that `storeUserInfo` builds from
the session table, followed by the end of the stream, and every read delivered
whole, `printUserInfo` shows the session list in the first round only: in each
later round its length read returns 0 and it reports that there is no active
session, whatever the number of sessions. This holds in both modes. -/
theorem user_section_first_round_only (n : Nat) (user system : Bool) (c : Consumer)
    (entries : List UtmpEntry)
    (hshown : (user || !system) = true)
    (hdata : c.pipes.userFD.data = frame (userBlob entries))
    (hw : deliversWhole MAX_USER_BUFFER c.pipes.userFD.sched) :
    ((runSequentialMode (n + 1) user system c).map (fun r => r.users) =
        some (UserOutput.sessions (payload (userBlob entries))) ::
          List.replicate n (some UserOutput.noSessions) ∧
      (∀ k, (Pipe.read (afterRounds (sequentialRound user system) (k + 1) c).pipes.userFD 8).1
        = 0)) ∧
    ((runNonsequentialMode (n + 1) user system c).map (fun r => r.users) =
        some (UserOutput.sessions (payload (userBlob entries))) ::
          List.replicate n (some UserOutput.noSessions) ∧
      (∀ k,
        (Pipe.read (afterRounds (nonsequentialRound user system) (k + 1) c).pipes.userFD 8).1
          = 0)) := by
  have hlen : (userBlob entries).length + 1 ≤ MAX_USER_BUFFER := by
    have h := userBlob_eq entries
    have hl : (userBlob entries).length ≤ 4095 := by
      rw [h, List.length_take]
      exact min_le_left _ _
    unfold MAX_USER_BUFFER
    omega
  exact ⟨runRounds_users_single_blob (sequentialRound user system)
      (fun c' => sequentialRound_users user system c' hshown) n c _ hlen hdata hw,
    runRounds_users_single_blob (nonsequentialRound user system)
      (fun c' => nonsequentialRound_users user system c' hshown) n c _ hlen hdata hw⟩

/-- Witness of C29: three rounds in sequential mode with only the user section
(`user` set, `system` not set) and a table of one session. -/
theorem user_section_first_round_only_witness :
    (true || !false) = true ∧
    deliversWhole MAX_USER_BUFFER ([] : List Delivery) ∧
    (runSequentialMode 3 true false
      ⟨⟨⟨[], []⟩, ⟨[], []⟩, ⟨frame (userBlob [⟨7, [117], [108], [104]⟩]), []⟩, ⟨[], []⟩⟩,
        CpuStats.zero, CpuStats.zero, CpuState.init⟩).map (fun r => r.users) =
      [some (UserOutput.sessions [117, 9, 32, 108, 32, 40, 104, 41, 10, 0]),
        some UserOutput.noSessions, some UserOutput.noSessions] := by
  have hw : deliversWhole MAX_USER_BUFFER ([] : List Delivery) := by
    intro d hd
    cases hd
  exact ⟨rfl, hw,
    (user_section_first_round_only 2 true false
      ⟨⟨⟨[], []⟩, ⟨[], []⟩, ⟨frame (userBlob [⟨7, [117], [108], [104]⟩]), []⟩, ⟨[], []⟩⟩,
        CpuStats.zero, CpuStats.zero, CpuState.init⟩ [⟨7, [117], [108], [104]⟩] rfl rfl hw).1.1⟩

end SysMon
